import Mathlib

/-!
SubTake: the verification pipeline of `subtake.go`

A shallow embedding of the scanner's core (`checkSubdomain`, `matchesCNAME`,
`verifyWithHTTP`, `processTargets`, the start-up code of `init` and `main`)
and theorems about it.

Conventions of the embedding.

* Go strings are modelled by Lean strings.  `strings.Contains` compares bytes;
  on well-formed UTF-8 text this is the same as comparing characters, which is
  what the model does.
* Go `int` and `int64` values are modelled by `Int`.  The only arithmetic of
  the program on them is the conversion of the timeout to a `time.Duration`,
  where the 64-bit wrap-around is explicit.
* Everything the program obtains from outside (DNS answers, HTTP responses,
  the clock, the regular-expression engine) comes from an `Env` record of
  oracles.  HTTP calls are numbered in the order in which one evaluation issues
  them, so that two requests for the same URL may be answered differently.
* The process-wide variables `config`, `signatures`, `client`, `httpClient`
  and `results` are the fields of `Globals`, passed explicitly.
-/

set_option autoImplicit false

namespace SubTake

/-! ## Data model -/

/-- Configuration structure (`type Config struct`). -/
structure Config where
  Threads : Int := 0
  Timeout : Int := 0
  UserAgent : String := ""
  FollowRedirects : Bool := false
  VerifySSL : Bool := false
  DeepCheck : Bool := false
  OutputFile : String := ""
  CustomSignatures : List String := []
  deriving DecidableEq, Repr

/-- Result structure (`type Result struct`); every field starts at Go's zero value. -/
structure Result where
  Subdomain : String := ""
  CNAME : String := ""
  Service : String := ""
  Status : String := ""
  Confidence : String := ""
  Evidence : String := ""
  IP : String := ""
  ResponseTime : Int := 0
  deriving DecidableEq, Repr

/-- Service signatures (`type ServiceSignature struct`). -/
structure ServiceSignature where
  Service : String := ""
  CNAMES : List String := []
  Fingerprint : String := ""
  StatusCode : Int := 0
  BodyMatch : String := ""
  HeaderMatch : String := ""
  Confidence : String := ""
  deriving DecidableEq, Repr

/-- The settings of the `fasthttp.Client` built by `init`; durations are in nanoseconds. -/
structure Client where
  ReadTimeout : Int := 0
  WriteTimeout : Int := 0
  MaxConnsPerHost : Int := 0
  InsecureSkipVerify : Bool := false
  DisableHeaderNamesNormalizing : Bool := false
  deriving DecidableEq, Repr

/-- The settings of the `net/http` client built by `init`. -/
structure HttpClient where
  Timeout : Int := 0
  InsecureSkipVerify : Bool := false
  deriving DecidableEq, Repr

/-- The package-level variables of the program. -/
structure Globals where
  config : Config := {}
  signatures : List ServiceSignature := []
  client : Client := {}
  httpClient : HttpClient := {}
  results : List Result := []
  deriving DecidableEq, Repr

/-- The request that `verifyWithHTTP` prepares before `client.Do`. -/
structure Request where
  URI : String
  Method : String
  UserAgent : String
  deriving DecidableEq, Repr

/-- What `verifyWithHTTP` reads from a `fasthttp.Response`: the status code, the
body, and the sequence of `(key, value)` pairs that `resp.Header.VisitAll`
passes to its callback (a header name may be visited more than once, as for
several `Set-Cookie` lines). -/
structure Response where
  StatusCode : Int
  Body : String
  Headers : List (String × String) := []
  deriving DecidableEq, Repr

/-- The outside world as seen by the evaluation of one target.

* `lookupCNAME s` is `net.LookupCNAME s`: `none` when it returns an error.
* `lookupIP s` is `net.LookupIP s`, the addresses already rendered by
  `String()`: `none` when it returns an error.
* `clientDo c k req` is the outcome of the `k`-th call of `client.Do` (counted
  from 0 within the evaluation) made through the client `c`: `none` when it
  returns an error.
* `sinceMs k` is the value of `time.Since(start).Milliseconds()` read after the
  `k`-th call has returned a response.
* `matchString p s` is the boolean returned by `regexp.MatchString p s`
  (`false` when the pattern does not compile). -/
structure Env where
  lookupCNAME : String → Option String
  lookupIP : String → Option (List String)
  clientDo : Client → Nat → Request → Option Response
  sinceMs : Nat → Int
  matchString : String → String → Bool

/-! ## Library functions -/

/-- Whether the first list is an initial segment of the second. -/
def startsWith : List Char → List Char → Bool
  | [], _ => true
  | _ :: _, [] => false
  | p :: ps, c :: cs => p == c && startsWith ps cs

/-- Whether the pattern `p` occurs in `s` as a contiguous block. -/
def containsChars : List Char → List Char → Bool
  | [], p => startsWith p []
  | c :: cs, p => startsWith p (c :: cs) || containsChars cs p

/-- Go's `strings.Contains(s, substr)`. -/
def stringsContains (s substr : String) : Bool :=
  containsChars s.data substr.data

/-- Conversion to a signed 64-bit integer with wrap-around. -/
def wrapInt64 (x : Int) : Int :=
  (x + 2 ^ 63) % 2 ^ 64 - 2 ^ 63

/-- The Go expression `time.Duration(t) * time.Second`, in nanoseconds. -/
def durationSeconds (t : Int) : Int :=
  wrapInt64 (wrapInt64 t * 1000000000)

/-- Go's `fmt.Sprintf("%d", n)`. -/
def sprintD (n : Int) : String :=
  toString n

/-! ## The signature registry -/

/-- The table assigned to `signatures` by `loadSignatures`. -/
def loadSignatures : List ServiceSignature := [
  { Service := "AWS S3",
    CNAMES := [".s3.amazonaws.com", ".s3-website", ".s3."],
    Fingerprint := "NoSuchBucket",
    StatusCode := 404,
    BodyMatch := "NoSuchBucket|No Such Bucket",
    Confidence := "high" },
  { Service := "GitHub Pages",
    CNAMES := [".github.io", ".github.com"],
    Fingerprint := "There isn't a GitHub Pages site here",
    StatusCode := 404,
    BodyMatch := "There isn't a GitHub Pages site here",
    Confidence := "high" },
  { Service := "Heroku",
    CNAMES := [".herokuapp.com", ".herokudns.com"],
    Fingerprint := "No such app",
    StatusCode := 404,
    BodyMatch := "No such app|heroku|Heroku",
    Confidence := "high" },
  { Service := "Shopify",
    CNAMES := [".myshopify.com"],
    Fingerprint := "Sorry, this shop is currently unavailable",
    StatusCode := 404,
    BodyMatch := "Sorry, this shop is currently unavailable",
    Confidence := "high" },
  { Service := "Fastly",
    CNAMES := [".fastly.net", ".fastly."],
    Fingerprint := "Fastly error|404 Not Found",
    StatusCode := 404,
    BodyMatch := "Fastly error",
    Confidence := "medium" },
  { Service := "Azure",
    CNAMES := [".azurewebsites.net", ".cloudapp.azure.com"],
    Fingerprint := "Azure",
    StatusCode := 404,
    BodyMatch := "Microsoft Azure|Azure",
    Confidence := "medium" },
  { Service := "Google Cloud",
    CNAMES := [".appspot.com", ".cloud.goog", ".googleusercontent.com"],
    Fingerprint := "Google Cloud",
    StatusCode := 404,
    BodyMatch := "Google Cloud|The requested URL was not found",
    Confidence := "medium" },
  { Service := "Firebase",
    CNAMES := [".web.app", ".firebaseapp.com"],
    Fingerprint := "Firebase",
    StatusCode := 404,
    BodyMatch := "Firebase|The requested URL was not found",
    Confidence := "high" },
  { Service := "CloudFront",
    CNAMES := [".cloudfront.net"],
    Fingerprint := "CloudFront",
    StatusCode := 404,
    BodyMatch := "CloudFront|ERROR: The request could not be satisfied",
    HeaderMatch := "X-Cache: Error from cloudfront",
    Confidence := "high" },
  { Service := "AWS Elastic Beanstalk",
    CNAMES := [".elasticbeanstalk.com"],
    Fingerprint := "AWS Elastic Beanstalk",
    StatusCode := 404,
    BodyMatch := "AWS Elastic Beanstalk",
    Confidence := "medium" },
  { Service := "Bitbucket",
    CNAMES := [".bitbucket.io"],
    Fingerprint := "Bitbucket",
    StatusCode := 404,
    BodyMatch := "Bitbucket|Repository not found",
    Confidence := "high" },
  { Service := "Readme.io",
    CNAMES := [".readme.io", ".readme.com"],
    Fingerprint := "Readme",
    StatusCode := 404,
    BodyMatch := "Readme|Project doesnt exist",
    Confidence := "high" },
  { Service := "Intercom",
    CNAMES := [".intercom.help", ".intercom.io"],
    Fingerprint := "Intercom",
    StatusCode := 404,
    BodyMatch := "Intercom|This page is not on Intercom",
    Confidence := "high" },
  { Service := "Help Scout",
    CNAMES := [".helpscoutdocs.com", ".helpscout.com"],
    Fingerprint := "Help Scout",
    StatusCode := 404,
    BodyMatch := "Help Scout|No settings were found for this company",
    Confidence := "high" },
  { Service := "Ghost.io",
    CNAMES := [".ghost.io"],
    Fingerprint := "Ghost",
    StatusCode := 404,
    BodyMatch := "Ghost|The blog you were looking for was not found",
    Confidence := "high" },
  { Service := "Pantheon",
    CNAMES := [".pantheonsite.io", ".pantheon.io"],
    Fingerprint := "Pantheon",
    StatusCode := 404,
    BodyMatch := "Pantheon|The gods are wise",
    Confidence := "high" },
  { Service := "Tilda",
    CNAMES := [".tilda.ws", ".tilda.com"],
    Fingerprint := "Tilda",
    StatusCode := 404,
    BodyMatch := "Tilda|Please renew your subscription",
    Confidence := "high" },
  { Service := "WordPress.com",
    CNAMES := [".wordpress.com", ".wp.com"],
    Fingerprint := "WordPress",
    StatusCode := 404,
    BodyMatch := "WordPress|This site is not available",
    Confidence := "high" },
  { Service := "Zendesk",
    CNAMES := [".zendesk.com", ".zendesk.com"],
    Fingerprint := "Zendesk",
    StatusCode := 404,
    BodyMatch := "Zendesk|Help Center Closed",
    Confidence := "high" },
  { Service := "Unbounce",
    CNAMES := [".unbounce.com"],
    Fingerprint := "Unbounce",
    StatusCode := 404,
    BodyMatch := "Unbounce|The requested URL was not found",
    Confidence := "high" },
  { Service := "Surge.sh",
    CNAMES := [".surge.sh"],
    Fingerprint := "Surge",
    StatusCode := 404,
    BodyMatch := "Surge|project not found",
    Confidence := "high" },
  { Service := "Netlify",
    CNAMES := [".netlify.app", ".netlify.com"],
    Fingerprint := "Netlify",
    StatusCode := 404,
    BodyMatch := "Netlify|Not Found - Request ID",
    Confidence := "high" },
  { Service := "Launchrock",
    CNAMES := [".launchrock.com"],
    Fingerprint := "Launchrock",
    StatusCode := 404,
    BodyMatch := "Launchrock|It appears that you don't have a LaunchRock site",
    Confidence := "high" },
  { Service := "Aftership",
    CNAMES := [".aftership.com"],
    Fingerprint := "Aftership",
    StatusCode := 404,
    BodyMatch := "Aftership|Oops! The page you're looking for doesn't exist",
    Confidence := "high" },
  { Service := "Cargo Collective",
    CNAMES := [".cargocollective.com"],
    Fingerprint := "Cargo",
    StatusCode := 404,
    BodyMatch := "Cargo|404 Not Found",
    Confidence := "medium" },
  { Service := "Feedpress",
    CNAMES := [".feedpress.com"],
    Fingerprint := "Feedpress",
    StatusCode := 404,
    BodyMatch := "Feedpress|The feed has not been found",
    Confidence := "high" },
  { Service := "Freshdesk",
    CNAMES := [".freshdesk.com"],
    Fingerprint := "Freshdesk",
    StatusCode := 404,
    BodyMatch := "Freshdesk|Sorry, this page is no longer available",
    Confidence := "high" },
  { Service := "Gemfury",
    CNAMES := [".fury.io", ".gemfury.com"],
    Fingerprint := "Gemfury",
    StatusCode := 404,
    BodyMatch := "Gemfury|404 Not Found",
    Confidence := "medium" },
  { Service := "Help Juice",
    CNAMES := [".helpjuice.com"],
    Fingerprint := "Help Juice",
    StatusCode := 404,
    BodyMatch := "Help Juice|We could not find what you're looking for",
    Confidence := "high" },
  { Service := "Help Docs",
    CNAMES := [".helpdocs.io"],
    Fingerprint := "Help Docs",
    StatusCode := 404,
    BodyMatch := "Help Docs|The knowledge base you are looking for does not exist",
    Confidence := "high" },
  { Service := "Instapage",
    CNAMES := [".pageserve.co", ".secure.pageserve.co"],
    Fingerprint := "Instapage",
    StatusCode := 404,
    BodyMatch := "Instapage|The page you are looking for doesn't exist",
    Confidence := "high" },
  { Service := "Smartling",
    CNAMES := [".smartling.com"],
    Fingerprint := "Smartling",
    StatusCode := 404,
    BodyMatch := "Smartling|The specified project does not exist",
    Confidence := "high" },
  { Service := "Statuspage",
    CNAMES := [".statuspage.io"],
    Fingerprint := "Statuspage",
    StatusCode := 404,
    BodyMatch := "Statuspage|You are being redirected",
    Confidence := "medium" },
  { Service := "Thinkific",
    CNAMES := [".thinkific.com"],
    Fingerprint := "Thinkific",
    StatusCode := 404,
    BodyMatch := "Thinkific|The page you were looking for doesn't exist",
    Confidence := "high" },
  { Service := "Tumblr",
    CNAMES := [".tumblr.com"],
    Fingerprint := "Tumblr",
    StatusCode := 404,
    BodyMatch := "Tumblr|There's nothing here",
    Confidence := "high" },
  { Service := "UserVoice",
    CNAMES := [".uservoice.com"],
    Fingerprint := "UserVoice",
    StatusCode := 404,
    BodyMatch := "UserVoice|This site is not available",
    Confidence := "high" },
  { Service := "WordPress VIP",
    CNAMES := [".wpcomstaging.com"],
    Fingerprint := "WordPress VIP",
    StatusCode := 404,
    BodyMatch := "WordPress VIP|This site is not available",
    Confidence := "high" },
  { Service := "Worksites",
    CNAMES := [".worksites.net"],
    Fingerprint := "Worksites",
    StatusCode := 404,
    BodyMatch := "Worksites|Site Not Found",
    Confidence := "high" },
  { Service := "Agile CRM",
    CNAMES := [".agilecrm.com"],
    Fingerprint := "Agile CRM",
    StatusCode := 404,
    BodyMatch := "Agile CRM|Sorry, this page is no longer available",
    Confidence := "high" }
]


/-! ## Start-up: `init` and the configuration block of `main` -/

/-- The body of `init`: the default configuration, the two HTTP clients built
from that configuration, and the signature table. -/
def init : Globals :=
  let config : Config :=
    { Threads := 50,
      Timeout := 10,
      UserAgent := "SubTake/v2.0",
      FollowRedirects := true,
      VerifySSL := false,
      DeepCheck := true,
      OutputFile := "" }
  { config := config,
    client :=
      { ReadTimeout := durationSeconds config.Timeout,
        WriteTimeout := durationSeconds config.Timeout,
        MaxConnsPerHost := 100,
        InsecureSkipVerify := !config.VerifySSL,
        DisableHeaderNamesNormalizing := true },
    httpClient :=
      { Timeout := durationSeconds config.Timeout,
        InsecureSkipVerify := !config.VerifySSL },
    signatures := loadSignatures,
    results := [] }

/-- The command-line flags parsed by `main`, with the defaults given to `flag`. -/
structure Flags where
  targetFile : String := ""
  singleTarget : String := ""
  outputFile : String := ""
  threads : Int := 50
  timeout : Int := 10
  verbose : Bool := false
  verifySSL : Bool := false
  deepCheck : Bool := true
  jsonOutput : Bool := false
  deriving DecidableEq, Repr

/-- The block `// Update configuration` of `main`: five assignments to fields of
`config`; no other package-level variable is assigned. -/
def mainUpdateConfig (flags : Flags) (g : Globals) : Globals :=
  { g with
    config :=
      { g.config with
        Threads := flags.threads,
        Timeout := flags.timeout,
        VerifySSL := flags.verifySSL,
        DeepCheck := flags.deepCheck,
        OutputFile := flags.outputFile } }

/-! ## Matching and verification -/

/-- The function `matchesCNAME`. -/
def matchesCNAME (cname : String) : List String → Bool
  | [] => false
  | pattern :: rest =>
    if stringsContains cname pattern then true else matchesCNAME cname rest

/-- The assignment `headers[key] = value` on a Go map, kept as an association
list with one entry per key. -/
def mapSet : List (String × String) → String → String → List (String × String)
  | [], k, v => [(k, v)]
  | (k0, v0) :: rest, k, v =>
    if k0 = k then (k, v) :: rest else (k0, v0) :: mapSet rest k v

/-- The map `headers` that `verifyWithHTTP` fills from `resp.Header.VisitAll`. -/
def collectHeaders (visited : List (String × String)) : List (String × String) :=
  visited.foldl (fun headers kv => mapSet headers kv.1 kv.2) []

/-- What a call of `verifyWithHTTP` leaves behind: the returned boolean, the
`Result` it wrote through its pointer argument, and the number of `client.Do`
calls issued so far by the evaluation. -/
structure Verified where
  confirmed : Bool
  result : Result
  sent : Nat
  deriving DecidableEq, Repr

/-- The loop `for _, testURL := range urls` of `verifyWithHTTP`; `k` is the number
of `client.Do` calls issued before the iteration.  The loop over the map
`headers` returns at the first entry that contains the header pattern, so it is
an existence test: the order in which Go walks the map does not matter. -/
def verifyLoop (env : Env) (g : Globals) (signature : ServiceSignature) :
    List String → Result → Nat → Verified
  | [], result, k => { confirmed := false, result := result, sent := k }
  | testURL :: urls, result, k =>
    let req : Request :=
      { URI := testURL, Method := "GET", UserAgent := g.config.UserAgent }
    match env.clientDo g.client k req with
    | none => verifyLoop env g signature urls result (k + 1)
    | some resp =>
      let result := { result with ResponseTime := env.sinceMs k }
      let body := resp.Body
      let statusCode := resp.StatusCode
      let result :=
        if signature.StatusCode != 0 && statusCode == signature.StatusCode then
          { result with Evidence := "Status: " ++ sprintD statusCode }
        else result
      if signature.BodyMatch != "" && env.matchString signature.BodyMatch body then
        { confirmed := true,
          result := { result with Evidence := result.Evidence ++ " | Body match" },
          sent := k + 1 }
      else if signature.HeaderMatch != "" &&
          (collectHeaders resp.Headers).any
            (fun kv => stringsContains (kv.1 ++ ":" ++ kv.2) signature.HeaderMatch) then
        { confirmed := true,
          result := { result with Evidence := result.Evidence ++ " | Header match" },
          sent := k + 1 }
      else if signature.StatusCode != 0 && statusCode == signature.StatusCode &&
          signature.BodyMatch == "" then
        { confirmed := true, result := result, sent := k + 1 }
      else verifyLoop env g signature urls result (k + 1)

/-- The function `verifyWithHTTP`: HTTPS first, then HTTP. -/
def verifyWithHTTP (env : Env) (g : Globals) (subdomain : String)
    (signature : ServiceSignature) (result : Result) (k : Nat) : Verified :=
  verifyLoop env g signature ["https://" ++ subdomain, "http://" ++ subdomain] result k

/-- The result of one evaluation together with the number of `client.Do` calls
it issued. -/
structure Checked where
  result : Result
  sent : Nat
  deriving DecidableEq, Repr

/-- The loop `for _, signature := range signatures` of `checkSubdomain`. -/
def signatureLoop (env : Env) (g : Globals) (subdomain cname : String) :
    List ServiceSignature → Result → Nat → Checked
  | [], result, k => { result := result, sent := k }
  | signature :: rest, result, k =>
    if matchesCNAME cname signature.CNAMES then
      let result :=
        { result with Service := signature.Service, Confidence := signature.Confidence }
      if g.config.DeepCheck then
        let v := verifyWithHTTP env g subdomain signature result k
        if v.confirmed then
          { result := { v.result with Status := "vulnerable" }, sent := v.sent }
        else signatureLoop env g subdomain cname rest v.result v.sent
      else
        signatureLoop env g subdomain cname rest
          { result with Status := "potentially_vulnerable", Evidence := "CNAME match only" } k
    else signatureLoop env g subdomain cname rest result k

/-- The function `checkSubdomain`, instrumented with the count of HTTP calls. -/
def checkSubdomainRun (env : Env) (g : Globals) (subdomain : String) : Checked :=
  let result : Result := { Subdomain := subdomain, Status := "safe" }
  match env.lookupCNAME subdomain with
  | none => { result := result, sent := 0 }
  | some cname =>
    let result := { result with CNAME := cname }
    let result :=
      match env.lookupIP subdomain with
      | some (ip :: _) => { result with IP := ip }
      | _ => result
    signatureLoop env g subdomain cname g.signatures result 0

/-- The function `checkSubdomain`. -/
def checkSubdomain (env : Env) (g : Globals) (subdomain : String) : Result :=
  (checkSubdomainRun env g subdomain).result

/-! ## The coordinator -/

/-- The body of the goroutine started by `processTargets` for the target `t`:
`env` is what that worker observes of the network. -/
def worker (env : Env) (g : Globals) (t : String) : Globals :=
  let result := checkSubdomain env g t
  if result.Status != "" then { g with results := g.results ++ [result] } else g

/-- How a call ends: it returns a value, the process exits through `os.Exit(1)`,
it panics, or it blocks for ever. -/
inductive Outcome (α : Type) where
  | returned (value : α)
  | exited
  | panicked
  | blocked
  deriving DecidableEq, Repr

/-- The package-level variables after the workers have made their appends.  The
worker of the target at index `i` observes the network as `world i`.  The
workers append to `results` under `resultsLock`, one at a time, in an order
that the scheduler decides: `order` lists the target indices in the order in
which the workers reach that point. -/
def runWorkers (world : Nat → Env) (g : Globals) (targets : List String)
    (order : List Nat) : Globals :=
  order.foldl
    (fun acc i =>
      match targets[i]? with
      | some t => worker (world i) acc t
      | none => acc)
    g

/-- The function `processTargets`, for the order `order` in which the workers
append.  `make(chan struct{}, config.Threads)` panics for a negative
`config.Threads`.  With `config.Threads = 0` the channel has no buffer and no
receiver exists before the first worker is started, so for a non-empty list
the first send `semaphore <- struct{}{}` never completes.  Otherwise every
target gets its worker and `wg.Wait()` lets the function return once all of
them have finished.  Every order that a run produces is a permutation of the
target indices; which permutations can occur depends on the scheduler and on
the number of slots. -/
def processTargets (world : Nat → Env) (g : Globals) (targets : List String)
    (order : List Nat) : Outcome Globals :=
  if g.config.Threads < 0 then Outcome.panicked
  else if g.config.Threads = 0 ∧ 0 < targets.length then Outcome.blocked
  else Outcome.returned (runWorkers world g targets order)

/-- The function `main` from the configuration block to the return of
`processTargets`.  `fileTargets` is what `readTargetsFromFile` returns (`none`
when it exits on an I/O error). -/
def main (world : Nat → Env) (flags : Flags) (fileTargets : Option (List String))
    (order : List Nat) : Outcome Globals :=
  let g := mainUpdateConfig flags init
  if flags.targetFile == "" && flags.singleTarget == "" then Outcome.exited
  else if flags.targetFile != "" then
    match fileTargets with
    | none => Outcome.exited
    | some targets => processTargets world g targets order
  else processTargets world g [flags.singleTarget] order

/-! ## The coordinator as an interleaving of goroutines

The goroutine that runs `processTargets` and the workers it starts advance one
statement at a time, in any order a scheduler chooses.  The primitives have
their Go meaning: `make(chan struct{}, n)` panics for a negative `n`; a send on
the channel completes only while fewer than `n` elements are buffered (for
`n = 0` it would need a receiver that is ready, and the only receivers are
workers, which exist only after a send has completed); a receive takes one
buffered element; `wg.Wait()` returns only while the counter is zero. -/

/-- The statement that the goroutine of `processTargets` executes next; in the
first three cases for the target at index `next` of the loop. -/
inductive MainPc where
  /-- At `wg.Add(1)`. -/
  | add
  /-- At `semaphore <- struct{}{}`. -/
  | acquire
  /-- At `go func(t string) {...}(target)`. -/
  | spawn
  /-- At `wg.Wait()`, the loop being over. -/
  | wait
  /-- Past `wg.Wait()`: `processTargets` has returned. -/
  | returned
  deriving DecidableEq, Repr

/-- The statement that a worker goroutine executes next. -/
inductive WorkerPc where
  /-- Started; `checkSubdomain(t)` has not returned yet. -/
  | check
  /-- The call `checkSubdomain(t)` has returned `result`; the test of the status and the
  append under `resultsLock` come next. -/
  | append (result : Result)
  /-- At the deferred `<-semaphore`. -/
  | release
  /-- At the deferred `wg.Done()`. -/
  | signal
  /-- The goroutine has ended. -/
  | exited
  deriving DecidableEq, Repr

/-- A worker goroutine: the index of its target in the list, the argument `t`,
and its position in the body. -/
structure Worker where
  index : Nat
  target : String
  pc : WorkerPc
  deriving DecidableEq, Repr

/-- The state of a run of `processTargets`: the position of the main goroutine, the
loop index, the workers in the order in which they were started, the number of
elements buffered in `semaphore`, the counter of `wg`, the package-level
variables, and the target indices in the order of their appends. -/
structure Pool where
  mainPc : MainPc
  next : Nat
  workers : List Worker
  semaphore : Nat
  wg : Nat
  globals : Globals
  appended : List Nat
  deriving DecidableEq, Repr

/-- What the scheduler lets run next: the main goroutine, or the worker that was
started as number `i`. -/
inductive Action where
  | main
  | worker (i : Nat)
  deriving DecidableEq, Repr

/-- The state in which the loop of `processTargets` is entered; `none` when
`make(chan struct{}, config.Threads)` panics. -/
def poolStart (g : Globals) (targets : List String) : Option Pool :=
  if g.config.Threads < 0 then none
  else
    some
      { mainPc := if 0 < targets.length then MainPc.add else MainPc.wait,
        next := 0,
        workers := [],
        semaphore := 0,
        wg := 0,
        globals := g,
        appended := [] }

/-- One statement of the main goroutine; `none` when it is blocked or has
returned. -/
def mainStep (targets : List String) (s : Pool) : Option Pool :=
  match s.mainPc with
  | MainPc.add => some { s with wg := s.wg + 1, mainPc := MainPc.acquire }
  | MainPc.acquire =>
    if (s.semaphore : Int) < s.globals.config.Threads then
      some { s with semaphore := s.semaphore + 1, mainPc := MainPc.spawn }
    else none
  | MainPc.spawn =>
    match targets[s.next]? with
    | some t =>
      some
        { s with
          workers := s.workers ++ [{ index := s.next, target := t, pc := WorkerPc.check }],
          next := s.next + 1,
          mainPc := if s.next + 1 < targets.length then MainPc.add else MainPc.wait }
    | none => none
  | MainPc.wait => if s.wg = 0 then some { s with mainPc := MainPc.returned } else none
  | MainPc.returned => none

/-- One statement of the worker `w`, which stands at position `i` of the list of
workers; `none` when it is blocked or has ended. -/
def workerStep (world : Nat → Env) (i : Nat) (w : Worker) (s : Pool) : Option Pool :=
  match w.pc with
  | WorkerPc.check =>
    let result := checkSubdomain (world w.index) s.globals w.target
    some { s with workers := s.workers.set i { w with pc := WorkerPc.append result } }
  | WorkerPc.append result =>
    if result.Status != "" then
      some
        { s with
          globals := { s.globals with results := s.globals.results ++ [result] },
          appended := s.appended ++ [w.index],
          workers := s.workers.set i { w with pc := WorkerPc.release } }
    else some { s with workers := s.workers.set i { w with pc := WorkerPc.release } }
  | WorkerPc.release =>
    if 0 < s.semaphore then
      some
        { s with
          semaphore := s.semaphore - 1,
          workers := s.workers.set i { w with pc := WorkerPc.signal } }
    else none
  | WorkerPc.signal =>
    if 0 < s.wg then
      some { s with wg := s.wg - 1, workers := s.workers.set i { w with pc := WorkerPc.exited } }
    else none
  | WorkerPc.exited => none

/-- One step of the run: the goroutine chosen by the scheduler executes its next
statement. -/
def poolStep (world : Nat → Env) (targets : List String) (a : Action) (s : Pool) :
    Option Pool :=
  match a with
  | Action.main => mainStep targets s
  | Action.worker i =>
    match s.workers[i]? with
    | some w => workerStep world i w s
    | none => none

/-- The state after a schedule, a list of choices that are all enabled. -/
def runPool (world : Nat → Env) (targets : List String) : List Action → Pool → Option Pool
  | [], s => some s
  | a :: schedule, s =>
    match poolStep world targets a s with
    | some s1 => runPool world targets schedule s1
    | none => none

/-- The state that `processTargets` reaches under a schedule. -/
def processTargetsPool (world : Nat → Env) (g : Globals) (targets : List String)
    (schedule : List Action) : Option Pool :=
  match poolStart g targets with
  | some s => runPool world targets schedule s
  | none => none

/-- Whether a worker is evaluating its target. -/
def evaluating (w : Worker) : Bool :=
  match w.pc with
  | WorkerPc.check => true
  | _ => false

/-- Whether a worker holds a slot of the semaphore: from its start until its
deferred receive. -/
def holdsSlot (w : Worker) : Bool :=
  match w.pc with
  | WorkerPc.check => true
  | WorkerPc.append _ => true
  | WorkerPc.release => true
  | _ => false

/-- Whether a worker has not yet called `wg.Done()`. -/
def unsignalled (w : Worker) : Bool :=
  match w.pc with
  | WorkerPc.exited => false
  | _ => true

/-- The number of target evaluations in flight. -/
def inFlight (s : Pool) : Nat :=
  s.workers.countP evaluating

/-! ## Concrete environments used in the examples -/

/-- The alternatives of a pattern, cut at every `|`. -/
def splitBar : List Char → List (List Char)
  | [] => [[]]
  | c :: cs =>
    match splitBar cs with
    | [] => [[c]]
    | alt :: alts => if c = '|' then [] :: alt :: alts else (c :: alt) :: alts

/-- A regular-expression oracle for patterns that are alternatives of literal
texts separated by `|`, the shape of every body pattern of the built-in table:
such a pattern matches exactly the texts that contain one of the alternatives. -/
def literalAlternatives (pattern s : String) : Bool :=
  (splitBar pattern.data).any (fun alt => containsChars s.data alt)

/-- A network in which every lookup and every request fails. -/
def deadEnv : Env :=
  { lookupCNAME := fun _ => none,
    lookupIP := fun _ => none,
    clientDo := fun _ _ _ => none,
    sinceMs := fun _ => 0,
    matchString := literalAlternatives }

/-- A network that answers every CNAME lookup with `cname` and whose HTTP
attempts all fail. -/
def cnameOnlyEnv (cname : String) : Env :=
  { deadEnv with lookupCNAME := fun _ => some cname }

/-- The start-up state with deep checking switched off (`-deep=false`). -/
def shallowGlobals : Globals :=
  mainUpdateConfig { singleTarget := "foo.example.com", deepCheck := false } init

/-- A network for the target of scenario B: the CNAME is `bar.github.io`, the
HTTPS request is answered after 120 ms by the 404 page of GitHub Pages. -/
def githubEnv : Env :=
  { deadEnv with
    lookupCNAME := fun _ => some "bar.github.io",
    clientDo := fun _ k _ =>
      if k = 0 then
        some { StatusCode := 404, Body := "<p>There isn't a GitHub Pages site here.</p>" }
      else none,
    sinceMs := fun _ => 120 }

/-- The GitHub Pages entry of the built-in table. -/
def githubSignature : ServiceSignature :=
  { Service := "GitHub Pages",
    CNAMES := [".github.io", ".github.com"],
    Fingerprint := "There isn't a GitHub Pages site here",
    StatusCode := 404,
    BodyMatch := "There isn't a GitHub Pages site here",
    Confidence := "high" }

/-- A network in which both the HTTPS and the HTTP request are answered by an
ordinary page (status 200) that confirms nothing, the first after 100 ms and
the second after 250 ms. -/
def slowEnv : Env :=
  { deadEnv with
    lookupCNAME := fun _ => some "bar.github.io",
    clientDo := fun _ _ _ => some { StatusCode := 200, Body := "welcome" },
    sinceMs := fun k => if k = 0 then 100 else 250 }

/-- A signature that is confirmed by the header `X-Cache` with the value
`Error from cloudfront`. -/
def headerSignature : ServiceSignature :=
  { Service := "Edge cache",
    CNAMES := [".edge.example.net"],
    HeaderMatch := "X-Cache:Error from cloudfront",
    Confidence := "medium" }

/-- A response that carries two `X-Cache` header lines; the first one has the
value that `headerSignature` looks for. -/
def repeatedHeaderResponse : Response :=
  { StatusCode := 200,
    Body := "",
    Headers := [("X-Cache", "Error from cloudfront"), ("X-Cache", "Miss from edge")] }

/-- A network whose HTTPS answer is `repeatedHeaderResponse` and whose HTTP
attempt fails. -/
def repeatedHeaderEnv : Env :=
  { deadEnv with
    clientDo := fun _ k _ => if k = 0 then some repeatedHeaderResponse else none }

/-- The command line `-d x.example.com -ssl -timeout 30`. -/
def strictFlags : Flags :=
  { singleTarget := "x.example.com", verifySSL := true, timeout := 30 }

/-- A network for a target whose CNAME is `bar.github.io`: the HTTPS request is
answered by a plain 404 page, the HTTP request by a page with status 200 whose
body carries the GitHub Pages text. -/
def staleAttemptEnv : Env :=
  { deadEnv with
    lookupCNAME := fun _ => some "bar.github.io",
    clientDo := fun _ k _ =>
      if k = 0 then some { StatusCode := 404, Body := "Not Found" }
      else some { StatusCode := 200, Body := "<p>There isn't a GitHub Pages site here.</p>" } }

/-- A network for a target whose CNAME is `x.s3.fastly.net`: the two requests of
the first verification are answered by a plain 404 page, every later request by
a page with status 200 whose body carries the Fastly text. -/
def staleSignatureEnv : Env :=
  { deadEnv with
    lookupCNAME := fun _ => some "x.s3.fastly.net",
    clientDo := fun _ k _ =>
      if k < 2 then some { StatusCode := 404, Body := "Not Found" }
      else some { StatusCode := 200, Body := "Fastly error: unknown domain" } }

/-- The CloudFront entry of the built-in table. -/
def cloudfrontSignature : ServiceSignature :=
  { Service := "CloudFront",
    CNAMES := [".cloudfront.net"],
    Fingerprint := "CloudFront",
    StatusCode := 404,
    BodyMatch := "CloudFront|ERROR: The request could not be satisfied",
    HeaderMatch := "X-Cache: Error from cloudfront",
    Confidence := "high" }

/-- A response with the given status and body that carries the header `X-Cache`
with the value `Error from cloudfront`. -/
def cloudfrontResponse (status : Int) (body : String) : Response :=
  { StatusCode := status,
    Body := body,
    Headers := [("Content-Type", "text/html"), ("X-Cache", "Error from cloudfront")] }

/-- A network for a target whose CNAME is `d111.cloudfront.net`: both requests
are answered by `cloudfrontResponse status body`, and the regular-expression
engine finds no match in any body. -/
def cloudfrontEnv (status : Int) (body : String) : Env :=
  { deadEnv with
    lookupCNAME := fun _ => some "d111.cloudfront.net",
    clientDo := fun _ _ _ => some (cloudfrontResponse status body),
    matchString := fun _ _ => false }

/-- The start-up state with two slots (`-t 2`). -/
def twoThreadGlobals : Globals :=
  mainUpdateConfig { targetFile := "targets.txt", threads := 2 } init

/-- A schedule for three targets and two slots that runs to the return of
`processTargets`: two workers are started, the third target waits until the
first worker has released its slot. -/
def sampleSchedule : List Action :=
  [Action.main, Action.main, Action.main, Action.main, Action.main, Action.main,
    Action.worker 0, Action.worker 1, Action.worker 0, Action.worker 0,
    Action.main, Action.main, Action.main,
    Action.worker 1, Action.worker 1, Action.worker 1, Action.worker 0,
    Action.worker 2, Action.worker 2, Action.worker 2, Action.worker 2, Action.main]

/-- A schedule for one target that runs to the return of `processTargets`: the
main goroutine starts the worker, the worker runs to its end, the main
goroutine passes `wg.Wait()`. -/
def singleSchedule : List Action :=
  [Action.main, Action.main, Action.main,
    Action.worker 0, Action.worker 0, Action.worker 0, Action.worker 0, Action.main]

/-- A network in which the HTTPS request is answered after 100 ms by an ordinary
page (status 200) that confirms nothing, and the HTTP request fails. -/
def httpsOnlyEnv : Env :=
  { deadEnv with
    lookupCNAME := fun _ => some "bar.github.io",
    clientDo := fun _ k _ => if k = 0 then some { StatusCode := 200, Body := "welcome" } else none,
    sinceMs := fun k => if k = 0 then 100 else 250 }

/-! ## Auxiliary definitions for the proofs -/

/-- The three confirming tests that one iteration of the loop of `verifyWithHTTP`
applies to a response, as one boolean. -/
def attemptConfirms (env : Env) (signature : ServiceSignature) (resp : Response) : Bool :=
  (signature.BodyMatch != "" && env.matchString signature.BodyMatch resp.Body) ||
  (signature.HeaderMatch != "" &&
    (collectHeaders resp.Headers).any
      (fun kv => stringsContains (kv.1 ++ ":" ++ kv.2) signature.HeaderMatch)) ||
  (signature.StatusCode != 0 && resp.StatusCode == signature.StatusCode &&
    signature.BodyMatch == "")

/-- The `Result` after the two unconditional updates of an iteration that got the
response `resp` as the answer to call `k`: the response time, and the status
evidence when the status is the expected one. -/
def stamped (env : Env) (signature : ServiceSignature) (resp : Response)
    (result : Result) (k : Nat) : Result :=
  let result := { result with ResponseTime := env.sinceMs k }
  if signature.StatusCode != 0 && resp.StatusCode == signature.StatusCode then
    { result with Evidence := "Status: " ++ sprintD resp.StatusCode }
  else result

/-- What an iteration returns when the response `resp` to call `k` confirms: the
evidence of the first test that passed is appended to the stamped result. -/
def confirmedWith (env : Env) (signature : ServiceSignature) (resp : Response)
    (result : Result) (k : Nat) : Verified :=
  { confirmed := true,
    result :=
      if signature.BodyMatch != "" && env.matchString signature.BodyMatch resp.Body then
        { stamped env signature resp result k with
          Evidence := (stamped env signature resp result k).Evidence ++ " | Body match" }
      else if signature.HeaderMatch != "" &&
          (collectHeaders resp.Headers).any
            (fun kv => stringsContains (kv.1 ++ ":" ++ kv.2) signature.HeaderMatch) then
        { stamped env signature resp result k with
          Evidence := (stamped env signature resp result k).Evidence ++ " | Header match" }
      else stamped env signature resp result k,
    sent := k + 1 }

/-- Whether the outcome of an attempt is a response that confirms. -/
def outcomeConfirms (env : Env) (signature : ServiceSignature) : Option Response → Bool
  | none => false
  | some resp => attemptConfirms env signature resp

/-- The HTTPS request of `verifyWithHTTP` for a target. -/
def httpsRequest (g : Globals) (subdomain : String) : Request :=
  { URI := "https://" ++ subdomain, Method := "GET", UserAgent := g.config.UserAgent }

/-- The HTTP request of `verifyWithHTTP` for a target. -/
def httpRequest (g : Globals) (subdomain : String) : Request :=
  { URI := "http://" ++ subdomain, Method := "GET", UserAgent := g.config.UserAgent }

/-- The signatures of a registry whose CNAME substrings match `cname`, in
registry order. -/
def candidates (g : Globals) (cname : String) : List ServiceSignature :=
  g.signatures.filter (fun signature => matchesCNAME cname signature.CNAMES)

/-- The fields that the shallow branch of `checkSubdomain` writes for a matching
signature. -/
def markPotential (result : Result) (signature : ServiceSignature) : Result :=
  { result with
    Service := signature.Service,
    Confidence := signature.Confidence,
    Status := "potentially_vulnerable",
    Evidence := "CNAME match only" }

/-- The `Result` that `checkSubdomain` holds when it enters the signature loop. -/
def resolvedResult (env : Env) (subdomain cname : String) : Result :=
  let result : Result := { Subdomain := subdomain, Status := "safe", CNAME := cname }
  match env.lookupIP subdomain with
  | some (ip :: _) => { result with IP := ip }
  | _ => result

/-- The verdict of `verifyWithHTTP` for a signature when its first call is the
call number `k`, read off the outcomes of the two attempts. -/
def confirmsAt (env : Env) (g : Globals) (subdomain : String)
    (signature : ServiceSignature) (k : Nat) : Bool :=
  outcomeConfirms env signature (env.clientDo g.client k (httpsRequest g subdomain)) ||
    outcomeConfirms env signature (env.clientDo g.client (k + 1) (httpRequest g subdomain))

/-- The facts that hold in every state of a run of `processTargets` started with the
package-level variables `g`: the buffered elements of `semaphore` are the slots
of the workers that have not reached their receive, plus the one just sent by
the main goroutine; they never exceed `config.Threads`; the counter of `wg` is
the number of workers that have not called `Done`, plus the pending `Add`; the
workers started are those of the targets before the loop index; and the
function has returned only with the counter at zero. -/
structure PoolInv (g : Globals) (targets : List String) (s : Pool) : Prop where
  slots :
    s.workers.countP holdsSlot + (if s.mainPc = MainPc.spawn then 1 else 0) = s.semaphore
  cap : (s.semaphore : Int) ≤ g.config.Threads
  settings : s.globals.config = g.config
  counter :
    s.workers.countP unsignalled +
      (if s.mainPc = MainPc.acquire ∨ s.mainPc = MainPc.spawn then 1 else 0) = s.wg
  started : s.workers.length = s.next
  looping :
    (s.mainPc = MainPc.add ∨ s.mainPc = MainPc.acquire ∨ s.mainPc = MainPc.spawn) →
      s.next < targets.length
  finished : (s.mainPc = MainPc.wait ∨ s.mainPc = MainPc.returned) → s.next = targets.length
  quiet : s.mainPc = MainPc.returned → s.wg = 0

/-- Whether a worker is past the append of its result. -/
def pastAppend (w : Worker) : Bool :=
  match w.pc with
  | WorkerPc.release => true
  | WorkerPc.signal => true
  | WorkerPc.exited => true
  | _ => false

/-- 1 when the worker started as number `j` is past its append, 0 otherwise. -/
def logCount (workers : List Worker) (j : Nat) : Nat :=
  match workers[j]? with
  | some w => if pastAppend w then 1 else 0
  | none => 0

/-- The link between a state of the run and the function `runWorkers` applied
to the order of the appends made so far: the worker started as number `i`
evaluates the target at index `i`; the package-level variables are those that
`runWorkers` gives for the appends already made; a result waiting to be
appended is the result of `checkSubdomain` on the target of its worker; and
each worker past its append is logged exactly once. -/
structure PoolLog (world : Nat → Env) (g : Globals) (targets : List String) (s : Pool) :
    Prop where
  named : ∀ (i : Nat) (w : Worker), s.workers[i]? = some w →
    w.index = i ∧ targets[i]? = some w.target
  logged : s.globals = runWorkers world g targets s.appended
  pending : ∀ (i : Nat) (w : Worker) (r : Result), s.workers[i]? = some w →
    w.pc = WorkerPc.append r → r = checkSubdomain (world w.index) g w.target
  once : ∀ j, s.appended.count j = logCount s.workers j

/-! ## Substring search -/

theorem startsWith_iff (p s : List Char) : startsWith p s = true ↔ p <+: s := by
  induction p generalizing s with
  | nil => simp [startsWith]
  | cons a p ih =>
    cases s with
    | nil => simp [startsWith]
    | cons c cs => simp [startsWith, ih, List.cons_prefix_cons]

theorem containsChars_iff (s p : List Char) : containsChars s p = true ↔ p <:+: s := by
  induction s with
  | nil =>
    rw [containsChars, startsWith_iff]
    simp [List.prefix_nil, List.infix_nil]
  | cons c cs ih =>
    rw [containsChars, Bool.or_eq_true, startsWith_iff, ih, List.infix_cons_iff]

theorem stringsContains_iff (s substr : String) :
    stringsContains s substr = true ↔ substr.data <:+: s.data := by
  unfold stringsContains
  exact containsChars_iff s.data substr.data

theorem matchesCNAME_iff (cname : String) (patterns : List String) :
    matchesCNAME cname patterns = true ↔
      ∃ pattern ∈ patterns, pattern.data <:+: cname.data := by
  induction patterns with
  | nil => simp [matchesCNAME]
  | cons p ps ih =>
    unfold matchesCNAME
    by_cases h : stringsContains cname p = true
    · have hp := (stringsContains_iff cname p).mp h
      simp [h, hp]
    · have hp : ¬ p.data <:+: cname.data := fun hp => h ((stringsContains_iff cname p).mpr hp)
      simp [h, hp, ih]

/-- C5.  `matchesCNAME cname patterns` is true exactly when some pattern of the list
occurs in `cname` as a literal block of characters; neither text is normalised
(an upper-case CNAME does not match a lower-case pattern, a pattern with a
trailing dot does not match a CNAME without it), and on the empty list the
answer is false. -/
theorem matchesCNAME_literal_substring (cname : String) (patterns : List String) :
    (matchesCNAME cname patterns = true ↔
      ∃ pattern ∈ patterns, pattern.data <:+: cname.data) ∧
    matchesCNAME cname [] = false ∧
    matchesCNAME "foo.GITHUB.IO" [".github.io"] = false ∧
    matchesCNAME "foo.github.io" [".github.io."] = false ∧
    matchesCNAME "foo.github.io." [".github.io"] = true :=
  ⟨matchesCNAME_iff cname patterns, rfl, by decide, by decide, by decide⟩

/-! ## One iteration of the verification loop -/

theorem verifyLoop_nil (env : Env) (g : Globals) (signature : ServiceSignature)
    (result : Result) (k : Nat) :
    verifyLoop env g signature [] result k =
      { confirmed := false, result := result, sent := k } := rfl

theorem verifyLoop_cons (env : Env) (g : Globals) (signature : ServiceSignature)
    (testURL : String) (urls : List String) (result : Result) (k : Nat) :
    verifyLoop env g signature (testURL :: urls) result k =
      match env.clientDo g.client k
        { URI := testURL, Method := "GET", UserAgent := g.config.UserAgent } with
      | none => verifyLoop env g signature urls result (k + 1)
      | some resp =>
        if signature.BodyMatch != "" && env.matchString signature.BodyMatch resp.Body then
          { confirmed := true,
            result :=
              { stamped env signature resp result k with
                Evidence := (stamped env signature resp result k).Evidence ++ " | Body match" },
            sent := k + 1 }
        else if signature.HeaderMatch != "" &&
            (collectHeaders resp.Headers).any
              (fun kv => stringsContains (kv.1 ++ ":" ++ kv.2) signature.HeaderMatch) then
          { confirmed := true,
            result :=
              { stamped env signature resp result k with
                Evidence := (stamped env signature resp result k).Evidence ++ " | Header match" },
            sent := k + 1 }
        else if signature.StatusCode != 0 && resp.StatusCode == signature.StatusCode &&
            signature.BodyMatch == "" then
          { confirmed := true, result := stamped env signature resp result k, sent := k + 1 }
        else verifyLoop env g signature urls (stamped env signature resp result k) (k + 1) := by
  rfl

theorem verifyLoop_failed (env : Env) (g : Globals) (signature : ServiceSignature)
    (testURL : String) (urls : List String) (result : Result) (k : Nat)
    (h : env.clientDo g.client k
      { URI := testURL, Method := "GET", UserAgent := g.config.UserAgent } = none) :
    verifyLoop env g signature (testURL :: urls) result k =
      verifyLoop env g signature urls result (k + 1) := by
  rw [verifyLoop_cons, h]

theorem verifyLoop_unconfirmed (env : Env) (g : Globals) (signature : ServiceSignature)
    (testURL : String) (urls : List String) (result : Result) (k : Nat) (resp : Response)
    (h : env.clientDo g.client k
      { URI := testURL, Method := "GET", UserAgent := g.config.UserAgent } = some resp)
    (hc : attemptConfirms env signature resp = false) :
    verifyLoop env g signature (testURL :: urls) result k =
      verifyLoop env g signature urls (stamped env signature resp result k) (k + 1) := by
  simp only [attemptConfirms, Bool.or_eq_false_iff] at hc
  obtain ⟨⟨hb, hh⟩, hs⟩ := hc
  rw [verifyLoop_cons, h]
  simp only []
  rw [if_neg (by rw [hb]; decide), if_neg (by rw [hh]; decide), if_neg (by rw [hs]; decide)]

theorem verifyLoop_confirmed (env : Env) (g : Globals) (signature : ServiceSignature)
    (testURL : String) (urls : List String) (result : Result) (k : Nat) (resp : Response)
    (h : env.clientDo g.client k
      { URI := testURL, Method := "GET", UserAgent := g.config.UserAgent } = some resp)
    (hc : attemptConfirms env signature resp = true) :
    verifyLoop env g signature (testURL :: urls) result k =
      { confirmed := true,
        result :=
          if signature.BodyMatch != "" && env.matchString signature.BodyMatch resp.Body then
            { stamped env signature resp result k with
              Evidence := (stamped env signature resp result k).Evidence ++ " | Body match" }
          else if signature.HeaderMatch != "" &&
              (collectHeaders resp.Headers).any
                (fun kv => stringsContains (kv.1 ++ ":" ++ kv.2) signature.HeaderMatch) then
            { stamped env signature resp result k with
              Evidence := (stamped env signature resp result k).Evidence ++ " | Header match" }
          else stamped env signature resp result k,
        sent := k + 1 } := by
  rw [verifyLoop_cons, h]
  simp only []
  by_cases hb : (signature.BodyMatch != "" && env.matchString signature.BodyMatch resp.Body) = true
  · rw [if_pos hb, if_pos hb]
  · rw [if_neg hb, if_neg hb]
    by_cases hh : (signature.HeaderMatch != "" &&
        (collectHeaders resp.Headers).any
          (fun kv => stringsContains (kv.1 ++ ":" ++ kv.2) signature.HeaderMatch)) = true
    · rw [if_pos hh, if_pos hh]
    · rw [if_neg hh, if_neg hh]
      have hs : (signature.StatusCode != 0 && resp.StatusCode == signature.StatusCode &&
          signature.BodyMatch == "") = true := by
        simp only [attemptConfirms, Bool.or_eq_true] at hc
        rcases hc with (hc | hc) | hc
        · exact absurd hc hb
        · exact absurd hc hh
        · exact hc
      rw [if_pos hs]

/-! ## The two attempts of `verifyWithHTTP` -/

theorem verifyWithHTTP_eq (env : Env) (g : Globals) (subdomain : String)
    (signature : ServiceSignature) (result : Result) (k : Nat) :
    verifyWithHTTP env g subdomain signature result k =
      match env.clientDo g.client k (httpsRequest g subdomain) with
      | some r1 =>
        if attemptConfirms env signature r1 then confirmedWith env signature r1 result k
        else
          match env.clientDo g.client (k + 1) (httpRequest g subdomain) with
          | some r2 =>
            if attemptConfirms env signature r2 then
              confirmedWith env signature r2 (stamped env signature r1 result k) (k + 1)
            else
              { confirmed := false,
                result := stamped env signature r2 (stamped env signature r1 result k) (k + 1),
                sent := k + 2 }
          | none =>
            { confirmed := false, result := stamped env signature r1 result k, sent := k + 2 }
      | none =>
        match env.clientDo g.client (k + 1) (httpRequest g subdomain) with
        | some r2 =>
          if attemptConfirms env signature r2 then confirmedWith env signature r2 result (k + 1)
          else { confirmed := false, result := stamped env signature r2 result (k + 1), sent := k + 2 }
        | none => { confirmed := false, result := result, sent := k + 2 } := by
  unfold verifyWithHTTP
  cases h1 : env.clientDo g.client k (httpsRequest g subdomain) with
  | none =>
    rw [verifyLoop_failed env g signature _ _ result k h1]
    cases h2 : env.clientDo g.client (k + 1) (httpRequest g subdomain) with
    | none => rw [verifyLoop_failed env g signature _ _ result (k + 1) h2, verifyLoop_nil]
    | some r2 =>
      show _ = ite _ _ _
      by_cases c2 : attemptConfirms env signature r2 = true
      · rw [verifyLoop_confirmed env g signature _ _ result (k + 1) r2 h2 c2, if_pos c2]
        rfl
      · rw [verifyLoop_unconfirmed env g signature _ _ result (k + 1) r2 h2
          (Bool.eq_false_iff.mpr c2), verifyLoop_nil, if_neg c2]
  | some r1 =>
    show _ = ite _ _ _
    by_cases c1 : attemptConfirms env signature r1 = true
    · rw [verifyLoop_confirmed env g signature _ _ result k r1 h1 c1, if_pos c1]
      rfl
    · rw [verifyLoop_unconfirmed env g signature _ _ result k r1 h1 (Bool.eq_false_iff.mpr c1),
        if_neg c1]
      cases h2 : env.clientDo g.client (k + 1) (httpRequest g subdomain) with
      | none => rw [verifyLoop_failed env g signature _ _ _ (k + 1) h2, verifyLoop_nil]
      | some r2 =>
        show _ = ite _ _ _
        by_cases c2 : attemptConfirms env signature r2 = true
        · rw [verifyLoop_confirmed env g signature _ _ _ (k + 1) r2 h2 c2, if_pos c2]
          rfl
        · rw [verifyLoop_unconfirmed env g signature _ _ _ (k + 1) r2 h2
            (Bool.eq_false_iff.mpr c2), verifyLoop_nil, if_neg c2]

theorem verifyWithHTTP_confirmed (env : Env) (g : Globals) (subdomain : String)
    (signature : ServiceSignature) (result : Result) (k : Nat) :
    (verifyWithHTTP env g subdomain signature result k).confirmed =
      (outcomeConfirms env signature (env.clientDo g.client k (httpsRequest g subdomain)) ||
        outcomeConfirms env signature
          (env.clientDo g.client (k + 1) (httpRequest g subdomain))) := by
  rw [verifyWithHTTP_eq]
  cases env.clientDo g.client k (httpsRequest g subdomain) <;>
    cases env.clientDo g.client (k + 1) (httpRequest g subdomain) <;>
    simp only [outcomeConfirms, Bool.or_false, Bool.false_or] <;>
    repeat' split <;> simp_all [confirmedWith]

theorem verifyWithHTTP_sent (env : Env) (g : Globals) (subdomain : String)
    (signature : ServiceSignature) (result : Result) (k : Nat)
    (h : (verifyWithHTTP env g subdomain signature result k).confirmed = false) :
    (verifyWithHTTP env g subdomain signature result k).sent = k + 2 := by
  rw [verifyWithHTTP_eq] at h ⊢
  cases h1 : env.clientDo g.client k (httpsRequest g subdomain) <;>
    cases h2 : env.clientDo g.client (k + 1) (httpRequest g subdomain) <;>
    simp only [h1, h2] at h ⊢ <;>
    repeat' split <;> simp_all [confirmedWith]

theorem stamped_status (env : Env) (signature : ServiceSignature) (resp : Response)
    (result : Result) (k : Nat) :
    (stamped env signature resp result k).Status = result.Status := by
  unfold stamped
  simp only []
  split <;> rfl

theorem verifyWithHTTP_status (env : Env) (g : Globals) (subdomain : String)
    (signature : ServiceSignature) (result : Result) (k : Nat) :
    (verifyWithHTTP env g subdomain signature result k).result.Status = result.Status := by
  rw [verifyWithHTTP_eq]
  cases env.clientDo g.client k (httpsRequest g subdomain) <;>
    cases env.clientDo g.client (k + 1) (httpRequest g subdomain) <;>
    simp only [confirmedWith] <;>
    (try split_ifs) <;>
    simp only [stamped_status]

/-! ## The signature loop without deep checking -/

theorem signatureLoop_shallow (env : Env) (g : Globals) (subdomain cname : String)
    (hshallow : g.config.DeepCheck = false) (sigs : List ServiceSignature) :
    ∀ (result : Result) (k : Nat),
      signatureLoop env g subdomain cname sigs result k =
        { result :=
            match (sigs.filter (fun s => matchesCNAME cname s.CNAMES)).getLast? with
            | none => result
            | some signature => markPotential result signature,
          sent := k } := by
  induction sigs with
  | nil => intro result k; rfl
  | cons s rest ih =>
    intro result k
    unfold signatureLoop
    by_cases hm : matchesCNAME cname s.CNAMES = true
    · have hf : (s :: rest).filter (fun s => matchesCNAME cname s.CNAMES) =
          s :: rest.filter (fun s => matchesCNAME cname s.CNAMES) :=
        List.filter_cons_of_pos hm
      rw [if_pos hm]
      simp only [hshallow, Bool.false_eq_true, if_false]
      rw [ih, hf, List.getLast?_cons]
      cases (rest.filter (fun s => matchesCNAME cname s.CNAMES)).getLast? with
      | none => rfl
      | some last => rfl
    · have hf : (s :: rest).filter (fun s => matchesCNAME cname s.CNAMES) =
          rest.filter (fun s => matchesCNAME cname s.CNAMES) :=
        List.filter_cons_of_neg hm
      rw [if_neg hm, ih, hf]

theorem checkSubdomainRun_resolved (env : Env) (g : Globals) (subdomain cname : String)
    (hc : env.lookupCNAME subdomain = some cname) :
    checkSubdomainRun env g subdomain =
      signatureLoop env g subdomain cname g.signatures
        (resolvedResult env subdomain cname) 0 := by
  unfold checkSubdomainRun resolvedResult
  rw [hc]

theorem resolvedResult_status (env : Env) (subdomain cname : String) :
    (resolvedResult env subdomain cname).Status = "safe" := by
  unfold resolvedResult
  simp only []
  split <;> rfl

theorem getLast?_filter_of_exists {α : Type} (p : α → Bool) (l : List α)
    (h : ∃ a ∈ l, p a = true) : ∃ b, (l.filter p).getLast? = some b ∧ b ∈ l ∧ p b = true := by
  obtain ⟨a, ha, hpa⟩ := h
  have hne : l.filter p ≠ [] := by
    intro hnil
    have : a ∈ l.filter p := List.mem_filter.mpr ⟨ha, hpa⟩
    rw [hnil] at this
    exact absurd this (List.not_mem_nil a)
  cases hl : (l.filter p).getLast? with
  | none => exact absurd (List.getLast?_eq_none_iff.mp hl) hne
  | some b =>
    have hb : b ∈ l.filter p := List.mem_of_getLast?_eq_some hl
    exact ⟨b, rfl, (List.mem_filter.mp hb).1, (List.mem_filter.mp hb).2⟩

/-! ## Claims C2 and C3 -/

/-- C2.  When the CNAME lookup fails, `checkSubdomain` returns at once the result
with status `safe`, the target name, every other text field empty and response
time 0; the value does not depend on the registry or the configuration, and no
HTTP call has been issued.  The function returns a plain `Result`: it has no
error to report. -/
theorem checkSubdomain_no_cname (env : Env) (g : Globals) (subdomain : String)
    (h : env.lookupCNAME subdomain = none) :
    checkSubdomain env g subdomain =
        { Subdomain := subdomain, CNAME := "", Service := "", Status := "safe",
          Confidence := "", Evidence := "", IP := "", ResponseTime := 0 } ∧
      (checkSubdomainRun env g subdomain).sent = 0 := by
  unfold checkSubdomain checkSubdomainRun
  rw [h]
  exact ⟨rfl, rfl⟩

theorem checkSubdomain_no_cname_witness :
    deadEnv.lookupCNAME "baz.example.com" = none ∧
      checkSubdomain deadEnv init "baz.example.com" =
        { Subdomain := "baz.example.com", CNAME := "", Service := "", Status := "safe",
          Confidence := "", Evidence := "", IP := "", ResponseTime := 0 } ∧
      (checkSubdomainRun deadEnv init "baz.example.com").sent = 0 :=
  ⟨rfl, checkSubdomain_no_cname deadEnv init "baz.example.com" rfl⟩

/-- C3.  With deep checking disabled and a resolved CNAME: if the CNAME contains
a CNAME substring of some registry signature, the status is
`potentially_vulnerable` and the evidence is exactly `CNAME match only`; if no
signature matches, the status is `safe`; in both cases no HTTP call is issued. -/
theorem checkSubdomain_shallow (env : Env) (g : Globals) (subdomain cname : String)
    (hshallow : g.config.DeepCheck = false)
    (hc : env.lookupCNAME subdomain = some cname) :
    ((∃ signature ∈ g.signatures, ∃ pattern ∈ signature.CNAMES,
          pattern.data <:+: cname.data) →
        (checkSubdomain env g subdomain).Status = "potentially_vulnerable" ∧
        (checkSubdomain env g subdomain).Evidence = "CNAME match only") ∧
      ((∀ signature ∈ g.signatures, matchesCNAME cname signature.CNAMES = false) →
        (checkSubdomain env g subdomain).Status = "safe") ∧
      (checkSubdomainRun env g subdomain).sent = 0 := by
  unfold checkSubdomain
  rw [checkSubdomainRun_resolved env g subdomain cname hc,
    signatureLoop_shallow env g subdomain cname hshallow]
  refine ⟨?_, ?_, rfl⟩
  · rintro ⟨signature, hmem, hpat⟩
    obtain ⟨last, hlast, -, -⟩ :=
      getLast?_filter_of_exists (fun s => matchesCNAME cname s.CNAMES) g.signatures
        ⟨signature, hmem, (matchesCNAME_iff cname signature.CNAMES).mpr hpat⟩
    simp only [hlast]
    exact ⟨rfl, rfl⟩
  · intro hnone
    have hnil : g.signatures.filter (fun s => matchesCNAME cname s.CNAMES) = [] := by
      rw [List.filter_eq_nil_iff]
      intro s hs
      rw [hnone s hs]
      decide
    simp only [hnil, List.getLast?_nil]
    exact resolvedResult_status env subdomain cname

theorem checkSubdomain_shallow_witness :
    shallowGlobals.config.DeepCheck = false ∧
      (cnameOnlyEnv "foo.s3.amazonaws.com").lookupCNAME "foo.example.com" =
        some "foo.s3.amazonaws.com" ∧
      (∃ signature ∈ shallowGlobals.signatures, ∃ pattern ∈ signature.CNAMES,
        pattern.data <:+: "foo.s3.amazonaws.com".data) ∧
      (checkSubdomain (cnameOnlyEnv "foo.s3.amazonaws.com") shallowGlobals
          "foo.example.com").Status = "potentially_vulnerable" ∧
      (checkSubdomain (cnameOnlyEnv "foo.s3.amazonaws.com") shallowGlobals
          "foo.example.com").Evidence = "CNAME match only" ∧
      (checkSubdomain (cnameOnlyEnv "foo.s3.amazonaws.com") shallowGlobals
          "foo.example.com").Service = "AWS S3" ∧
      (checkSubdomainRun (cnameOnlyEnv "foo.s3.amazonaws.com") shallowGlobals
          "foo.example.com").sent = 0 := by
  have hsub : ∃ signature ∈ shallowGlobals.signatures, ∃ pattern ∈ signature.CNAMES,
      pattern.data <:+: "foo.s3.amazonaws.com".data :=
    ⟨{ Service := "AWS S3",
       CNAMES := [".s3.amazonaws.com", ".s3-website", ".s3."],
       Fingerprint := "NoSuchBucket",
       StatusCode := 404,
       BodyMatch := "NoSuchBucket|No Such Bucket",
       Confidence := "high" }, by decide, ".s3.amazonaws.com", by decide,
      (stringsContains_iff "foo.s3.amazonaws.com" ".s3.amazonaws.com").mp (by decide)⟩
  have h := checkSubdomain_shallow (cnameOnlyEnv "foo.s3.amazonaws.com") shallowGlobals
    "foo.example.com" "foo.s3.amazonaws.com" rfl rfl
  exact ⟨rfl, rfl, hsub, (h.1 hsub).1, (h.1 hsub).2, by decide, h.2.2⟩

/-! ## The signature loop with deep checking -/

theorem verifyWithHTTP_confirmsAt (env : Env) (g : Globals) (subdomain : String)
    (signature : ServiceSignature) (result : Result) (k : Nat) :
    (verifyWithHTTP env g subdomain signature result k).confirmed =
      confirmsAt env g subdomain signature k :=
  verifyWithHTTP_confirmed env g subdomain signature result k

theorem signatureLoop_deep (env : Env) (g : Globals) (subdomain cname : String)
    (hdeep : g.config.DeepCheck = true) (sigs : List ServiceSignature) :
    ∀ (result : Result) (k : Nat), result.Status = "safe" →
      ((signatureLoop env g subdomain cname sigs result k).result.Status = "vulnerable" ↔
        ∃ j signature,
          (sigs.filter (fun s => matchesCNAME cname s.CNAMES))[j]? = some signature ∧
          confirmsAt env g subdomain signature (k + 2 * j) = true) ∧
      ((signatureLoop env g subdomain cname sigs result k).result.Status ≠ "vulnerable" →
        (signatureLoop env g subdomain cname sigs result k).result.Status = "safe" ∧
        (signatureLoop env g subdomain cname sigs result k).sent =
          k + 2 * (sigs.filter (fun s => matchesCNAME cname s.CNAMES)).length) := by
  induction sigs with
  | nil =>
    intro result k hsafe
    have hs : (signatureLoop env g subdomain cname [] result k).result.Status = "safe" := hsafe
    refine ⟨⟨fun h => ?_, fun h => ?_⟩, fun _ => ⟨hs, rfl⟩⟩
    · rw [hs] at h
      exact absurd h (by decide)
    · obtain ⟨j, signature, hj, -⟩ := h
      simp at hj
  | cons s rest ih =>
    intro result k hsafe
    by_cases hm : matchesCNAME cname s.CNAMES = true
    · have hf : (s :: rest).filter (fun s => matchesCNAME cname s.CNAMES) =
          s :: rest.filter (fun s => matchesCNAME cname s.CNAMES) :=
        List.filter_cons_of_pos hm
      rw [hf]
      by_cases hv : (verifyWithHTTP env g subdomain s
          { result with Service := s.Service, Confidence := s.Confidence } k).confirmed = true
      · have hstep : (signatureLoop env g subdomain cname (s :: rest) result k).result.Status =
            "vulnerable" := by
          rw [signatureLoop, if_pos hm, if_pos hdeep]
          simp only []
          rw [if_pos hv]
        refine ⟨⟨fun _ => ⟨0, s, List.getElem?_cons_zero, ?_⟩, fun _ => hstep⟩,
          fun h => absurd hstep h⟩
        rw [Nat.mul_zero, Nat.add_zero, ← verifyWithHTTP_confirmsAt env g subdomain s
          { result with Service := s.Service, Confidence := s.Confidence } k]
        exact hv
      · have hstep : signatureLoop env g subdomain cname (s :: rest) result k =
            signatureLoop env g subdomain cname rest
              (verifyWithHTTP env g subdomain s
                { result with Service := s.Service, Confidence := s.Confidence } k).result
              (k + 2) := by
          rw [signatureLoop, if_pos hm, if_pos hdeep]
          simp only []
          rw [if_neg hv, verifyWithHTTP_sent env g subdomain s _ k (Bool.eq_false_iff.mpr hv)]
        have hfalse : confirmsAt env g subdomain s k = false := by
          rw [← verifyWithHTTP_confirmsAt env g subdomain s
            { result with Service := s.Service, Confidence := s.Confidence } k]
          exact Bool.eq_false_iff.mpr hv
        have hsafe2 : (verifyWithHTTP env g subdomain s
            { result with Service := s.Service, Confidence := s.Confidence } k).result.Status =
              "safe" := by
          rw [verifyWithHTTP_status]
          exact hsafe
        obtain ⟨ih1, ih2⟩ := ih _ (k + 2) hsafe2
        rw [hstep]
        refine ⟨ih1.trans ⟨?_, ?_⟩, fun h => ?_⟩
        · rintro ⟨j, signature, hj, hcj⟩
          refine ⟨j + 1, signature, ?_, ?_⟩
          · rw [List.getElem?_cons_succ]
            exact hj
          · rw [show k + 2 * (j + 1) = k + 2 + 2 * j by ring]
            exact hcj
        · rintro ⟨j, signature, hj, hcj⟩
          cases j with
          | zero =>
            rw [List.getElem?_cons_zero] at hj
            cases hj
            rw [Nat.mul_zero, Nat.add_zero, hfalse] at hcj
            exact absurd hcj (by decide)
          | succ j =>
            rw [List.getElem?_cons_succ] at hj
            refine ⟨j, signature, hj, ?_⟩
            rw [show k + 2 + 2 * j = k + 2 * (j + 1) by ring]
            exact hcj
        · obtain ⟨h1, h2⟩ := ih2 h
          refine ⟨h1, ?_⟩
          rw [h2, List.length_cons]
          ring
    · have hf : (s :: rest).filter (fun s => matchesCNAME cname s.CNAMES) =
          rest.filter (fun s => matchesCNAME cname s.CNAMES) :=
        List.filter_cons_of_neg hm
      have hstep : signatureLoop env g subdomain cname (s :: rest) result k =
          signatureLoop env g subdomain cname rest result k := by
        rw [signatureLoop, if_neg hm]
      rw [hf, hstep]
      exact ih result k hsafe

/-- C4.  With deep checking enabled and a resolved CNAME, the candidates (the
registry signatures whose CNAME substrings match, in registry order) are
verified one after the other, each unconfirmed verification having used its two
HTTP calls: the status is `vulnerable` exactly when `verifyWithHTTP` confirms
some candidate at its turn (candidate number `j` starts at call `2 * j`; the
verdict does not depend on the `Result` passed in); otherwise the status is
`safe` and every candidate has been tried; the status is never
`potentially_vulnerable`. -/
theorem checkSubdomain_deep (env : Env) (g : Globals) (subdomain cname : String)
    (hdeep : g.config.DeepCheck = true)
    (hc : env.lookupCNAME subdomain = some cname) :
    ((checkSubdomain env g subdomain).Status = "vulnerable" ↔
        ∃ j signature, (candidates g cname)[j]? = some signature ∧
          ∀ result, (verifyWithHTTP env g subdomain signature result (2 * j)).confirmed = true) ∧
      ((checkSubdomain env g subdomain).Status ≠ "vulnerable" →
        (checkSubdomain env g subdomain).Status = "safe" ∧
        (checkSubdomainRun env g subdomain).sent = 2 * (candidates g cname).length) ∧
      (checkSubdomain env g subdomain).Status ≠ "potentially_vulnerable" := by
  unfold checkSubdomain candidates
  rw [checkSubdomainRun_resolved env g subdomain cname hc]
  obtain ⟨h1, h2⟩ := signatureLoop_deep env g subdomain cname hdeep g.signatures
    (resolvedResult env subdomain cname) 0 (resolvedResult_status env subdomain cname)
  simp only [Nat.zero_add] at h1 h2
  refine ⟨h1.trans ⟨?_, ?_⟩, h2, ?_⟩
  · rintro ⟨j, signature, hj, hcj⟩
    refine ⟨j, signature, hj, fun result => ?_⟩
    rw [verifyWithHTTP_confirmsAt]
    exact hcj
  · rintro ⟨j, signature, hj, hcj⟩
    refine ⟨j, signature, hj, ?_⟩
    rw [← verifyWithHTTP_confirmsAt env g subdomain signature {} (2 * j)]
    exact hcj {}
  · intro hpot
    by_cases hv : (signatureLoop env g subdomain cname g.signatures
        (resolvedResult env subdomain cname) 0).result.Status = "vulnerable"
    · rw [hv] at hpot
      exact absurd hpot (by decide)
    · rw [(h2 hv).1] at hpot
      exact absurd hpot (by decide)

theorem checkSubdomain_deep_witness :
    init.config.DeepCheck = true ∧
      (cnameOnlyEnv "x.s3.fastly.net").lookupCNAME "x.example.com" = some "x.s3.fastly.net" ∧
      (checkSubdomain (cnameOnlyEnv "x.s3.fastly.net") init "x.example.com").Status = "safe" ∧
      (checkSubdomainRun (cnameOnlyEnv "x.s3.fastly.net") init "x.example.com").sent = 4 ∧
      (checkSubdomain (cnameOnlyEnv "x.s3.fastly.net") init "x.example.com").Status ≠
        "potentially_vulnerable" := by
  have h := checkSubdomain_deep (cnameOnlyEnv "x.s3.fastly.net") init "x.example.com"
    "x.s3.fastly.net" rfl rfl
  have hsafe := h.2.1 (by decide)
  exact ⟨rfl, rfl, hsafe.1, hsafe.2.trans (by decide), h.2.2⟩

/-! ## Claim C6: what confirms a signature -/

theorem attemptConfirms_iff (env : Env) (signature : ServiceSignature) (resp : Response) :
    attemptConfirms env signature resp = true ↔
      ((signature.BodyMatch ≠ "" ∧ env.matchString signature.BodyMatch resp.Body = true) ∨
        (signature.HeaderMatch ≠ "" ∧
          ∃ kv ∈ collectHeaders resp.Headers,
            signature.HeaderMatch.data <:+: (kv.1 ++ ":" ++ kv.2).data) ∨
        (signature.StatusCode ≠ 0 ∧ resp.StatusCode = signature.StatusCode ∧
          signature.BodyMatch = "")) := by
  unfold attemptConfirms
  simp only [Bool.or_eq_true, Bool.and_eq_true, bne_iff_ne, ne_eq, beq_iff_eq, List.any_eq_true,
    stringsContains_iff, or_assoc, and_assoc]

theorem outcomeConfirms_iff (env : Env) (signature : ServiceSignature)
    (o : Option Response) :
    outcomeConfirms env signature o = true ↔
      ∃ resp, o = some resp ∧ attemptConfirms env signature resp = true := by
  cases o with
  | none => simp [outcomeConfirms]
  | some resp => simp [outcomeConfirms]

/-- C6, as amended.  `verifyWithHTTP` confirms exactly when the HTTPS attempt
(call `k`) or the HTTP attempt (call `k + 1`) produced a response for which (a)
the body pattern is non-empty and the body matches it, or (b) the header
pattern is non-empty and some entry of the header map filled from the response
(one value per header name, the last one visited) rendered as `key:value`
contains it, or (c) the expected status is non-zero, equals the observed status
and the body pattern is empty.  A failed attempt contributes nothing; with a
body pattern, a status match without body or header match does not confirm. -/
theorem verifyWithHTTP_confirms_iff (env : Env) (g : Globals) (subdomain : String)
    (signature : ServiceSignature) (result : Result) (k : Nat) :
    ((verifyWithHTTP env g subdomain signature result k).confirmed = true ↔
      ∃ resp,
        (env.clientDo g.client k (httpsRequest g subdomain) = some resp ∨
          env.clientDo g.client (k + 1) (httpRequest g subdomain) = some resp) ∧
        ((signature.BodyMatch ≠ "" ∧ env.matchString signature.BodyMatch resp.Body = true) ∨
          (signature.HeaderMatch ≠ "" ∧
            ∃ kv ∈ collectHeaders resp.Headers,
              signature.HeaderMatch.data <:+: (kv.1 ++ ":" ++ kv.2).data) ∨
          (signature.StatusCode ≠ 0 ∧ resp.StatusCode = signature.StatusCode ∧
            signature.BodyMatch = ""))) ∧
    (env.clientDo g.client k (httpsRequest g subdomain) = none →
      env.clientDo g.client (k + 1) (httpRequest g subdomain) = none →
      verifyWithHTTP env g subdomain signature result k =
        { confirmed := false, result := result, sent := k + 2 }) ∧
    (signature.BodyMatch ≠ "" →
      (∀ resp,
        (env.clientDo g.client k (httpsRequest g subdomain) = some resp ∨
          env.clientDo g.client (k + 1) (httpRequest g subdomain) = some resp) →
        env.matchString signature.BodyMatch resp.Body = false ∧
        (signature.HeaderMatch = "" ∨
          ∀ kv ∈ collectHeaders resp.Headers,
            ¬ signature.HeaderMatch.data <:+: (kv.1 ++ ":" ++ kv.2).data)) →
      (verifyWithHTTP env g subdomain signature result k).confirmed = false) := by
  have hiff : (verifyWithHTTP env g subdomain signature result k).confirmed = true ↔
      ∃ resp,
        (env.clientDo g.client k (httpsRequest g subdomain) = some resp ∨
          env.clientDo g.client (k + 1) (httpRequest g subdomain) = some resp) ∧
        ((signature.BodyMatch ≠ "" ∧ env.matchString signature.BodyMatch resp.Body = true) ∨
          (signature.HeaderMatch ≠ "" ∧
            ∃ kv ∈ collectHeaders resp.Headers,
              signature.HeaderMatch.data <:+: (kv.1 ++ ":" ++ kv.2).data) ∨
          (signature.StatusCode ≠ 0 ∧ resp.StatusCode = signature.StatusCode ∧
            signature.BodyMatch = "")) := by
    rw [verifyWithHTTP_confirmed, Bool.or_eq_true, outcomeConfirms_iff, outcomeConfirms_iff]
    constructor
    · rintro (⟨resp, ho, hconf⟩ | ⟨resp, ho, hconf⟩)
      · exact ⟨resp, Or.inl ho, (attemptConfirms_iff env signature resp).mp hconf⟩
      · exact ⟨resp, Or.inr ho, (attemptConfirms_iff env signature resp).mp hconf⟩
    · rintro ⟨resp, ho | ho, hconf⟩
      · exact Or.inl ⟨resp, ho, (attemptConfirms_iff env signature resp).mpr hconf⟩
      · exact Or.inr ⟨resp, ho, (attemptConfirms_iff env signature resp).mpr hconf⟩
  refine ⟨hiff, ?_, ?_⟩
  · intro h1 h2
    rw [verifyWithHTTP_eq, h1, h2]
  · intro hbody hno
    apply Bool.eq_false_iff.mpr
    intro hconf
    obtain ⟨resp, ho, hcase⟩ := hiff.mp hconf
    obtain ⟨hb, hh⟩ := hno resp ho
    rcases hcase with ⟨-, hm⟩ | ⟨hne, kv, hkv, hin⟩ | ⟨-, -, hempty⟩
    · rw [hb] at hm
      exact absurd hm (by decide)
    · rcases hh with hh | hh
      · exact hne hh
      · exact hh kv hkv hin
    · exact hbody hempty

theorem verifyWithHTTP_confirms_iff_witness :
    deadEnv.clientDo init.client 0 (httpsRequest init "bar.example.com") = none ∧
      deadEnv.clientDo init.client 1 (httpRequest init "bar.example.com") = none ∧
      verifyWithHTTP deadEnv init "bar.example.com" githubSignature {} 0 =
        { confirmed := false, result := {}, sent := 2 } ∧
      (verifyWithHTTP githubEnv init "bar.example.com" githubSignature {} 0).confirmed = true :=
  ⟨rfl, rfl,
    (verifyWithHTTP_confirms_iff deadEnv init "bar.example.com" githubSignature {} 0).2.1 rfl rfl,
    (verifyWithHTTP_confirms_iff githubEnv init "bar.example.com" githubSignature {} 0).1.mpr
      ⟨{ StatusCode := 404, Body := "<p>There isn't a GitHub Pages site here.</p>" },
        Or.inl rfl, Or.inl ⟨by decide, by decide⟩⟩⟩

/-- C6, counterexample to the claim as stated.  The HTTPS response carries the
header `X-Cache` with the value `Error from cloudfront`, which rendered as
`key:value` contains the header pattern of the signature, yet `verifyWithHTTP`
does not confirm: a second `X-Cache` line replaced the first one in the map. -/
theorem verifyWithHTTP_repeated_header_not_confirmed :
    repeatedHeaderEnv.clientDo init.client 0 (httpsRequest init "t.example.com") =
        some repeatedHeaderResponse ∧
      headerSignature.HeaderMatch ≠ "" ∧
      (∃ kv ∈ repeatedHeaderResponse.Headers,
        headerSignature.HeaderMatch.data <:+: (kv.1 ++ ":" ++ kv.2).data) ∧
      (verifyWithHTTP repeatedHeaderEnv init "t.example.com" headerSignature {} 0).confirmed =
        false :=
  ⟨rfl, by decide, ⟨("X-Cache", "Error from cloudfront"), by decide,
    (stringsContains_iff _ _).mp (by decide)⟩, by decide⟩

/-! ## The status of a result and the appends of the workers -/

theorem signatureLoop_status (env : Env) (g : Globals) (subdomain cname : String)
    (sigs : List ServiceSignature) :
    ∀ (result : Result) (k : Nat),
      (result.Status = "safe" ∨ result.Status = "potentially_vulnerable" ∨
        result.Status = "vulnerable") →
      ((signatureLoop env g subdomain cname sigs result k).result.Status = "safe" ∨
        (signatureLoop env g subdomain cname sigs result k).result.Status =
          "potentially_vulnerable" ∨
        (signatureLoop env g subdomain cname sigs result k).result.Status = "vulnerable") := by
  induction sigs with
  | nil => intro result k h; exact h
  | cons s rest ih =>
    intro result k h
    rw [signatureLoop]
    by_cases hm : matchesCNAME cname s.CNAMES = true
    · rw [if_pos hm]
      by_cases hdeep : g.config.DeepCheck = true
      · rw [if_pos hdeep]
        simp only []
        by_cases hv : (verifyWithHTTP env g subdomain s
            { result with Service := s.Service, Confidence := s.Confidence } k).confirmed = true
        · rw [if_pos hv]
          exact Or.inr (Or.inr rfl)
        · rw [if_neg hv]
          apply ih
          rw [verifyWithHTTP_status]
          exact h
      · rw [if_neg hdeep]
        apply ih
        exact Or.inr (Or.inl rfl)
    · rw [if_neg hm]
      exact ih result k h

theorem checkSubdomain_status (env : Env) (g : Globals) (subdomain : String) :
    (checkSubdomain env g subdomain).Status = "safe" ∨
      (checkSubdomain env g subdomain).Status = "potentially_vulnerable" ∨
      (checkSubdomain env g subdomain).Status = "vulnerable" := by
  unfold checkSubdomain
  cases hc : env.lookupCNAME subdomain with
  | none =>
    left
    unfold checkSubdomainRun
    rw [hc]
  | some cname =>
    rw [checkSubdomainRun_resolved env g subdomain cname hc]
    exact signatureLoop_status env g subdomain cname g.signatures _ 0
      (Or.inl (resolvedResult_status env subdomain cname))

theorem checkSubdomain_status_ne_empty (env : Env) (g : Globals) (subdomain : String) :
    (checkSubdomain env g subdomain).Status ≠ "" := by
  rcases checkSubdomain_status env g subdomain with h | h | h <;> rw [h] <;> decide

theorem signatureLoop_results (env : Env) (g : Globals) (rs : List Result)
    (subdomain cname : String) (sigs : List ServiceSignature) :
    ∀ (result : Result) (k : Nat),
      signatureLoop env { g with results := rs } subdomain cname sigs result k =
        signatureLoop env g subdomain cname sigs result k := by
  induction sigs with
  | nil => intro result k; rfl
  | cons s rest ih =>
    intro result k
    have hv : ∀ r, verifyWithHTTP env { g with results := rs } subdomain s r k =
        verifyWithHTTP env g subdomain s r k := by
      intro r
      rw [verifyWithHTTP_eq, verifyWithHTTP_eq]
      rfl
    rw [signatureLoop, signatureLoop]
    simp only [hv, ih]

theorem checkSubdomain_results (env : Env) (g : Globals) (rs : List Result)
    (subdomain : String) :
    checkSubdomain env { g with results := rs } subdomain = checkSubdomain env g subdomain := by
  unfold checkSubdomain checkSubdomainRun
  cases env.lookupCNAME subdomain with
  | none => rfl
  | some cname =>
    simp only []
    rw [signatureLoop_results]

theorem worker_eq (env : Env) (g : Globals) (rs : List Result) (t : String) :
    worker env { g with results := rs } t =
      { g with results := rs ++ [checkSubdomain env g t] } := by
  unfold worker
  simp only []
  rw [checkSubdomain_results]
  have h : ((checkSubdomain env g t).Status != "") = true := by
    rw [bne_iff_ne]
    exact checkSubdomain_status_ne_empty env g t
  rw [if_pos h]

theorem runWorkers_fold (world : Nat → Env) (g : Globals) (targets : List String)
    (order : List Nat) :
    ∀ rs : List Result,
      order.foldl
          (fun acc i =>
            match targets[i]? with
            | some t => worker (world i) acc t
            | none => acc)
          { g with results := rs } =
        { g with
          results := rs ++ order.filterMap
            (fun i => (targets[i]?).map (fun t => checkSubdomain (world i) g t)) } := by
  induction order with
  | nil => intro rs; simp
  | cons i rest ih =>
    intro rs
    rw [List.foldl_cons]
    cases ht : targets[i]? with
    | none =>
      simp only []
      rw [ih, List.filterMap_cons, ht]
      rfl
    | some t =>
      simp only []
      rw [worker_eq, ih, List.filterMap_cons, ht]
      simp

theorem runWorkers_eq (world : Nat → Env) (g : Globals) (targets : List String)
    (order : List Nat) :
    runWorkers world g targets order =
      { g with
        results := g.results ++ order.filterMap
          (fun i => (targets[i]?).map (fun t => checkSubdomain (world i) g t)) } := by
  unfold runWorkers
  exact runWorkers_fold world g targets order g.results

theorem length_filterMap_of_lt {β : Type} (targets : List String) (f : Nat → String → β)
    (l : List Nat) (h : ∀ i ∈ l, i < targets.length) :
    (l.filterMap (fun i => (targets[i]?).map (f i))).length = l.length := by
  induction l with
  | nil => rfl
  | cons i rest ih =>
    have hi : i < targets.length := h i (List.mem_cons_self i rest)
    rw [List.filterMap_cons, List.getElem?_eq_getElem hi]
    simp only [Option.map_some', List.length_cons]
    rw [ih (fun j hj => h j (List.mem_cons_of_mem i hj))]

/-! ## Claim C7: which signature is reported without deep checking -/

/-- C7, the code at the failing input.  With deep checking disabled, the CNAME
`x.s3.fastly.net` is matched by AWS S3 and then by Fastly; the loop goes on
after the first match, and the result names the last candidate, Fastly with
confidence `medium`, not the first one. -/
theorem checkSubdomain_shallow_reports_last_candidate :
    shallowGlobals.config.DeepCheck = false ∧
      (candidates shallowGlobals "x.s3.fastly.net").map (fun s => (s.Service, s.Confidence)) =
        [("AWS S3", "high"), ("Fastly", "medium")] ∧
      (checkSubdomain (cnameOnlyEnv "x.s3.fastly.net") shallowGlobals "x.example.com").Service =
        "Fastly" ∧
      (checkSubdomain (cnameOnlyEnv "x.s3.fastly.net") shallowGlobals
        "x.example.com").Confidence = "medium" ∧
      (checkSubdomain (cnameOnlyEnv "x.s3.fastly.net") shallowGlobals "x.example.com").Status =
        "potentially_vulnerable" := by
  refine ⟨rfl, by decide, by decide, by decide, by decide⟩

/-! ## Claim C8: the recorded response time -/

theorem stamped_time (env : Env) (signature : ServiceSignature) (resp : Response)
    (result : Result) (k : Nat) :
    (stamped env signature resp result k).ResponseTime = env.sinceMs k := by
  unfold stamped
  simp only []
  split <;> rfl

theorem confirmedWith_time (env : Env) (signature : ServiceSignature) (resp : Response)
    (result : Result) (k : Nat) :
    (confirmedWith env signature resp result k).result.ResponseTime = env.sinceMs k := by
  unfold confirmedWith
  simp only []
  split_ifs <;> simp only [stamped_time]

/-- C8, as amended.  `verifyWithHTTP` writes the elapsed time at every attempt
that returns a response, so the last such attempt wins, and the time is left
as it was when no attempt returns a response.  When the HTTPS attempt (call
`k`) and the HTTP attempt (call `k + 1`) both return a response and both calls
are issued, the stored time is the one read after the HTTP response, which
overwrites the HTTPS one.  The HTTPS time stays when the HTTP call is not
issued (the HTTPS response already confirmed) or when it is issued and fails.
When only the HTTP attempt returns a response, its time is stored. -/
theorem verifyWithHTTP_last_response_time (env : Env) (g : Globals) (subdomain : String)
    (signature : ServiceSignature) (result : Result) (k : Nat) :
    (∀ r1 r2 : Response,
        env.clientDo g.client k (httpsRequest g subdomain) = some r1 →
        env.clientDo g.client (k + 1) (httpRequest g subdomain) = some r2 →
        ((verifyWithHTTP env g subdomain signature result k).sent = k + 2 →
          (verifyWithHTTP env g subdomain signature result k).result.ResponseTime =
            env.sinceMs (k + 1)) ∧
        ((verifyWithHTTP env g subdomain signature result k).sent = k + 1 →
          (verifyWithHTTP env g subdomain signature result k).result.ResponseTime =
            env.sinceMs k ∧
          (verifyWithHTTP env g subdomain signature result k).confirmed = true) ∧
        ((verifyWithHTTP env g subdomain signature result k).sent = k + 1 ∨
          (verifyWithHTTP env g subdomain signature result k).sent = k + 2)) ∧
      (∀ r1 : Response,
        env.clientDo g.client k (httpsRequest g subdomain) = some r1 →
        env.clientDo g.client (k + 1) (httpRequest g subdomain) = none →
        (verifyWithHTTP env g subdomain signature result k).result.ResponseTime =
          env.sinceMs k ∧
        ((verifyWithHTTP env g subdomain signature result k).confirmed = false →
          (verifyWithHTTP env g subdomain signature result k).sent = k + 2)) ∧
      (∀ r2 : Response,
        env.clientDo g.client k (httpsRequest g subdomain) = none →
        env.clientDo g.client (k + 1) (httpRequest g subdomain) = some r2 →
        (verifyWithHTTP env g subdomain signature result k).result.ResponseTime =
          env.sinceMs (k + 1) ∧
        (verifyWithHTTP env g subdomain signature result k).sent = k + 2) ∧
      (env.clientDo g.client k (httpsRequest g subdomain) = none →
        env.clientDo g.client (k + 1) (httpRequest g subdomain) = none →
        (verifyWithHTTP env g subdomain signature result k).result.ResponseTime =
          result.ResponseTime ∧
        (verifyWithHTTP env g subdomain signature result k).sent = k + 2) := by
  refine ⟨?_, ?_, ?_, ?_⟩
  · intro r1 r2 h1 h2
    rw [verifyWithHTTP_eq, h1, h2]
    simp only []
    by_cases c1 : attemptConfirms env signature r1 = true
    · rw [if_pos c1]
      refine ⟨fun h => ?_, fun _ => ⟨confirmedWith_time env signature r1 result k, rfl⟩,
        Or.inl rfl⟩
      have hs : (confirmedWith env signature r1 result k).sent = k + 1 := rfl
      omega
    · rw [if_neg c1]
      by_cases c2 : attemptConfirms env signature r2 = true
      · rw [if_pos c2]
        refine ⟨fun _ => confirmedWith_time env signature r2 _ (k + 1), fun h => ?_, Or.inr rfl⟩
        have hs : (confirmedWith env signature r2 (stamped env signature r1 result k)
          (k + 1)).sent = k + 1 + 1 := rfl
        omega
      · rw [if_neg c2]
        refine ⟨fun _ => stamped_time env signature r2 _ (k + 1), fun h => ?_, Or.inr rfl⟩
        simp only [] at h
        omega
  · intro r1 h1 h2
    refine ⟨?_, verifyWithHTTP_sent env g subdomain signature result k⟩
    rw [verifyWithHTTP_eq, h1, h2]
    simp only []
    by_cases c1 : attemptConfirms env signature r1 = true
    · rw [if_pos c1]
      exact confirmedWith_time env signature r1 result k
    · rw [if_neg c1]
      exact stamped_time env signature r1 result k
  · intro r2 h1 h2
    rw [verifyWithHTTP_eq, h1, h2]
    simp only []
    by_cases c2 : attemptConfirms env signature r2 = true
    · rw [if_pos c2]
      exact ⟨confirmedWith_time env signature r2 result (k + 1), rfl⟩
    · rw [if_neg c2]
      exact ⟨stamped_time env signature r2 result (k + 1), rfl⟩
  · intro h1 h2
    rw [verifyWithHTTP_eq, h1, h2]
    exact ⟨rfl, rfl⟩

theorem verifyWithHTTP_last_response_time_witness :
    slowEnv.clientDo init.client 0 (httpsRequest init "bar.example.com") =
        some { StatusCode := 200, Body := "welcome" } ∧
      slowEnv.clientDo init.client 1 (httpRequest init "bar.example.com") =
        some { StatusCode := 200, Body := "welcome" } ∧
      (verifyWithHTTP slowEnv init "bar.example.com" githubSignature {} 0).sent = 2 ∧
      (verifyWithHTTP slowEnv init "bar.example.com" githubSignature {} 0).result.ResponseTime =
        slowEnv.sinceMs 1 ∧
      httpsOnlyEnv.clientDo init.client 0 (httpsRequest init "bar.example.com") =
        some { StatusCode := 200, Body := "welcome" } ∧
      httpsOnlyEnv.clientDo init.client 1 (httpRequest init "bar.example.com") = none ∧
      (verifyWithHTTP httpsOnlyEnv init "bar.example.com" githubSignature {} 0).sent = 2 ∧
      (verifyWithHTTP httpsOnlyEnv init "bar.example.com" githubSignature {}
        0).result.ResponseTime = httpsOnlyEnv.sinceMs 0 :=
  ⟨rfl, rfl, by decide,
    ((verifyWithHTTP_last_response_time slowEnv init "bar.example.com" githubSignature {} 0).1
      { StatusCode := 200, Body := "welcome" } { StatusCode := 200, Body := "welcome" }
      rfl rfl).1 (by decide),
    rfl, rfl,
    ((verifyWithHTTP_last_response_time httpsOnlyEnv init "bar.example.com" githubSignature {}
      0).2.1 { StatusCode := 200, Body := "welcome" } rfl rfl).2 (by decide),
    ((verifyWithHTTP_last_response_time httpsOnlyEnv init "bar.example.com" githubSignature {}
      0).2.1 { StatusCode := 200, Body := "welcome" } rfl rfl).1⟩

/-- C8, counterexample to the claim as stated.  Both attempts return a response,
the HTTPS one after 100 ms and the HTTP one after 250 ms; the time left in the
result is 250, the later measure, not the first one. -/
theorem verifyWithHTTP_time_is_overwritten :
    slowEnv.clientDo init.client 0 (httpsRequest init "bar.example.com") =
        some { StatusCode := 200, Body := "welcome" } ∧
      slowEnv.clientDo init.client 1 (httpRequest init "bar.example.com") =
        some { StatusCode := 200, Body := "welcome" } ∧
      slowEnv.sinceMs 0 = 100 ∧
      (verifyWithHTTP slowEnv init "bar.example.com" githubSignature {} 0).sent = 2 ∧
      (verifyWithHTTP slowEnv init "bar.example.com" githubSignature {} 0).result.ResponseTime =
        250 ∧
      (verifyWithHTTP slowEnv init "bar.example.com" githubSignature {} 0).result.ResponseTime ≠
        slowEnv.sinceMs 0 := by
  refine ⟨rfl, rfl, rfl, by decide, by decide, by decide⟩

/-! ## Claim C9: the client built at start-up -/

/-- C9, the code at the failing input.  `init` builds the client from the default
configuration before `main` reads the command line, and `main` assigns only
fields of `config`: for every command line the client of `verifyWithHTTP` is
the one of `init`.  With `-ssl -timeout 30` the configuration asks for
certificate validation and 30 seconds, while the client still skips validation
and keeps read and write timeouts of 10 seconds. -/
theorem client_keeps_startup_settings :
    (∀ flags : Flags, (mainUpdateConfig flags init).client = init.client) ∧
      (mainUpdateConfig strictFlags init).config.VerifySSL = true ∧
      (mainUpdateConfig strictFlags init).config.Timeout = 30 ∧
      (mainUpdateConfig strictFlags init).client.InsecureSkipVerify = true ∧
      (mainUpdateConfig strictFlags init).client.ReadTimeout = 10 * 1000000000 ∧
      (mainUpdateConfig strictFlags init).client.WriteTimeout = 10 * 1000000000 ∧
      (∀ (world : Nat → Env) (order : List Nat),
        ∃ g, main world strictFlags none order = Outcome.returned g ∧
          g.config.VerifySSL = true ∧ g.config.Timeout = 30 ∧
          g.client.InsecureSkipVerify = true ∧ g.client.ReadTimeout = 10 * 1000000000) := by
  refine ⟨fun _ => rfl, rfl, rfl, rfl, by rfl, by rfl, fun world order => ?_⟩
  refine ⟨runWorkers world (mainUpdateConfig strictFlags init) ["x.example.com"] order,
    rfl, ?_⟩
  rw [runWorkers_eq]
  exact ⟨rfl, rfl, rfl, by rfl⟩

/-! ## Claim C10: confirmation by the body -/

theorem stamped_evidence (env : Env) (signature : ServiceSignature) (resp : Response)
    (result : Result) (k : Nat) :
    (stamped env signature resp result k).Evidence =
      if signature.StatusCode != 0 && resp.StatusCode == signature.StatusCode then
        "Status: " ++ sprintD resp.StatusCode
      else result.Evidence := by
  unfold stamped
  simp only []
  split <;> rfl

theorem confirmedWith_body (env : Env) (signature : ServiceSignature) (resp : Response)
    (result : Result) (k : Nat)
    (hb : (signature.BodyMatch != "" && env.matchString signature.BodyMatch resp.Body) = true) :
    (confirmedWith env signature resp result k).result.Evidence =
      (if signature.StatusCode != 0 && resp.StatusCode == signature.StatusCode then
        "Status: " ++ sprintD resp.StatusCode
      else result.Evidence) ++ " | Body match" := by
  unfold confirmedWith
  simp only []
  rw [if_pos hb]
  simp only [stamped_evidence]

theorem body_match_infix (evidence : String) :
    "Body match".data <:+: (evidence ++ " | Body match").data := by
  refine ⟨evidence.data ++ " | ".data, [], ?_⟩
  rw [String.data_append, List.append_nil, List.append_assoc]
  rfl

/-- C10.  For a signature with a non-empty body pattern, when the first attempt
that returns a response (HTTPS, or HTTP after a failed HTTPS attempt) has a
body matching the pattern, `verifyWithHTTP` confirms and the evidence ends with
` | Body match`, so it contains `Body match`.  If the expected status is
non-zero and equals the status of the response, the evidence is exactly
`Status: <code> | Body match`; otherwise ` | Body match` is appended to the
evidence that the `Result` already held. -/
theorem verifyWithHTTP_body_match (env : Env) (g : Globals) (subdomain : String)
    (signature : ServiceSignature) (result : Result) (k : Nat) (resp : Response)
    (hbody : signature.BodyMatch ≠ "")
    (hfirst : env.clientDo g.client k (httpsRequest g subdomain) = some resp ∨
      (env.clientDo g.client k (httpsRequest g subdomain) = none ∧
        env.clientDo g.client (k + 1) (httpRequest g subdomain) = some resp))
    (hmatch : env.matchString signature.BodyMatch resp.Body = true) :
    (verifyWithHTTP env g subdomain signature result k).confirmed = true ∧
      "Body match".data <:+:
        (verifyWithHTTP env g subdomain signature result k).result.Evidence.data ∧
      (signature.StatusCode ≠ 0 → resp.StatusCode = signature.StatusCode →
        (verifyWithHTTP env g subdomain signature result k).result.Evidence =
          "Status: " ++ sprintD resp.StatusCode ++ " | Body match") ∧
      (¬ (signature.StatusCode ≠ 0 ∧ resp.StatusCode = signature.StatusCode) →
        (verifyWithHTTP env g subdomain signature result k).result.Evidence =
          result.Evidence ++ " | Body match") := by
  have hb : (signature.BodyMatch != "" && env.matchString signature.BodyMatch resp.Body) =
      true := by
    rw [Bool.and_eq_true, bne_iff_ne]
    exact ⟨hbody, hmatch⟩
  have hconf : attemptConfirms env signature resp = true := by
    unfold attemptConfirms
    rw [hb]
    rfl
  have key : ∀ k0 : Nat,
      verifyWithHTTP env g subdomain signature result k =
        confirmedWith env signature resp result k0 →
      (verifyWithHTTP env g subdomain signature result k).confirmed = true ∧
      "Body match".data <:+:
        (verifyWithHTTP env g subdomain signature result k).result.Evidence.data ∧
      (signature.StatusCode ≠ 0 → resp.StatusCode = signature.StatusCode →
        (verifyWithHTTP env g subdomain signature result k).result.Evidence =
          "Status: " ++ sprintD resp.StatusCode ++ " | Body match") ∧
      (¬ (signature.StatusCode ≠ 0 ∧ resp.StatusCode = signature.StatusCode) →
        (verifyWithHTTP env g subdomain signature result k).result.Evidence =
          result.Evidence ++ " | Body match") := by
    intro k0 hv
    rw [hv, confirmedWith_body env signature resp result k0 hb]
    refine ⟨rfl, body_match_infix _, fun hs he => ?_, fun hn => ?_⟩
    · have hcond : (signature.StatusCode != 0 && resp.StatusCode == signature.StatusCode) =
          true := by
        rw [Bool.and_eq_true, bne_iff_ne, beq_iff_eq]
        exact ⟨hs, he⟩
      rw [if_pos hcond]
    · have hcond : ¬ (signature.StatusCode != 0 && resp.StatusCode == signature.StatusCode) =
          true := by
        rw [Bool.and_eq_true, bne_iff_ne, beq_iff_eq]
        exact hn
      rw [if_neg hcond]
  rcases hfirst with h1 | ⟨h1, h2⟩
  · apply key k
    rw [verifyWithHTTP_eq, h1]
    simp only []
    rw [if_pos hconf]
  · apply key (k + 1)
    rw [verifyWithHTTP_eq, h1, h2]
    simp only []
    rw [if_pos hconf]

theorem verifyWithHTTP_body_match_witness :
    githubSignature.BodyMatch ≠ "" ∧
      githubEnv.clientDo init.client 0 (httpsRequest init "bar.example.com") =
        some { StatusCode := 404, Body := "<p>There isn't a GitHub Pages site here.</p>" } ∧
      githubEnv.matchString githubSignature.BodyMatch
        "<p>There isn't a GitHub Pages site here.</p>" = true ∧
      (verifyWithHTTP githubEnv init "bar.example.com" githubSignature {} 0).confirmed = true ∧
      (verifyWithHTTP githubEnv init "bar.example.com" githubSignature {} 0).result.Evidence =
        "Status: 404 | Body match" ∧
      githubEnv.lookupCNAME "bar.example.com" = some "bar.github.io" ∧
      checkSubdomain githubEnv init "bar.example.com" =
        { Subdomain := "bar.example.com", CNAME := "bar.github.io", Service := "GitHub Pages",
          Status := "vulnerable", Confidence := "high", Evidence := "Status: 404 | Body match",
          IP := "", ResponseTime := 120 } := by
  have h := verifyWithHTTP_body_match githubEnv init "bar.example.com" githubSignature {} 0
    { StatusCode := 404, Body := "<p>There isn't a GitHub Pages site here.</p>" }
    (by decide) (Or.inl rfl) (by decide)
  exact ⟨by decide, rfl, by decide, h.1, (h.2.2.1 (by decide) rfl).trans (by decide), rfl,
    by decide⟩

/-! ## Claim C12: status text left in the evidence -/

/-- C12, the code at two failing inputs.  `verifyWithHTTP` assigns the status
text on a status match and only appends afterwards; it never clears the
evidence.  First input: the HTTPS response has the expected status 404 but no
matching body, the HTTP response has status 200 and a matching body; the
Finding is confirmed by the second response and its evidence still reads
`Status: 404`.  Second input: the status text written while the AWS S3
signature was tried (not confirmed) stays in the evidence of the Finding that
the Fastly signature confirms with a response of status 200. -/
theorem checkSubdomain_stale_status_evidence :
    init.config.DeepCheck = true ∧
      attemptConfirms staleAttemptEnv githubSignature
        { StatusCode := 404, Body := "Not Found" } = false ∧
      attemptConfirms staleAttemptEnv githubSignature
        { StatusCode := 200, Body := "<p>There isn't a GitHub Pages site here.</p>" } = true ∧
      checkSubdomain staleAttemptEnv init "bar.example.com" =
        { Subdomain := "bar.example.com", CNAME := "bar.github.io", Service := "GitHub Pages",
          Status := "vulnerable", Confidence := "high", Evidence := "Status: 404 | Body match",
          IP := "", ResponseTime := 0 } ∧
      (checkSubdomainRun staleAttemptEnv init "bar.example.com").sent = 2 ∧
      (candidates init "x.s3.fastly.net").map (fun s => s.Service) = ["AWS S3", "Fastly"] ∧
      checkSubdomain staleSignatureEnv init "x.example.com" =
        { Subdomain := "x.example.com", CNAME := "x.s3.fastly.net", Service := "Fastly",
          Status := "vulnerable", Confidence := "medium", Evidence := "Status: 404 | Body match",
          IP := "", ResponseTime := 0 } ∧
      (checkSubdomainRun staleSignatureEnv init "x.example.com").sent = 3 := by
  refine ⟨rfl, by decide, by decide, by decide, by decide, by decide, by decide, by decide⟩

/-! ## Claim C13: the header rule of the CloudFront signature -/

theorem cloudfront_header_map :
    (collectHeaders [("Content-Type", "text/html"), ("X-Cache", "Error from cloudfront")]).any
      (fun kv => stringsContains (kv.1 ++ ":" ++ kv.2) "X-Cache: Error from cloudfront") =
        false := by
  decide

theorem cloudfront_attempt (status : Int) (body : String) :
    attemptConfirms (cloudfrontEnv status body) cloudfrontSignature
      (cloudfrontResponse status body) = false := by
  have hh := cloudfront_header_map
  have hb : (cloudfrontSignature.BodyMatch == "") = false := by decide
  unfold attemptConfirms
  simp only [cloudfrontEnv, cloudfrontResponse, cloudfrontSignature] at hh hb ⊢
  rw [hh, hb]
  simp

/-- C13, the code at the failing input.  The CloudFront signature of the built-in
table has the header pattern `X-Cache: Error from cloudfront`, with a blank
after the colon, while the code renders a header as key, colon, value without
a blank.  For a response of any status and body that carries the header
`X-Cache` with the value `Error from cloudfront` and whose body does not match,
`verifyWithHTTP` does not confirm and no ` | Header match` is appended: with
status 404 the evidence is just `Status: 404`, and the target ends `safe`. -/
theorem cloudfront_header_rule_does_not_fire :
    cloudfrontSignature ∈ init.signatures ∧
      (∀ (status : Int) (body : String) (result : Result) (k : Nat),
        (verifyWithHTTP (cloudfrontEnv status body) init "cdn.example.com"
          cloudfrontSignature result k).confirmed = false) ∧
      ("X-Cache", "Error from cloudfront") ∈ (cloudfrontResponse 404 "Not Found").Headers ∧
      stringsContains ("X-Cache" ++ ":" ++ "Error from cloudfront")
        cloudfrontSignature.HeaderMatch = false ∧
      verifyWithHTTP (cloudfrontEnv 404 "Not Found") init "cdn.example.com"
          cloudfrontSignature {} 0 =
        { confirmed := false, result := { Evidence := "Status: 404" }, sent := 2 } ∧
      checkSubdomain (cloudfrontEnv 404 "Not Found") init "cdn.example.com" =
        { Subdomain := "cdn.example.com", CNAME := "d111.cloudfront.net",
          Service := "CloudFront", Status := "safe", Confidence := "high",
          Evidence := "Status: 404", IP := "", ResponseTime := 0 } := by
  refine ⟨by decide, fun status body result k => ?_, by decide, by decide, by decide, by decide⟩
  rw [verifyWithHTTP_confirmed]
  have h1 : (cloudfrontEnv status body).clientDo init.client k
      (httpsRequest init "cdn.example.com") = some (cloudfrontResponse status body) := rfl
  have h2 : (cloudfrontEnv status body).clientDo init.client (k + 1)
      (httpRequest init "cdn.example.com") = some (cloudfrontResponse status body) := rfl
  rw [h1, h2]
  simp only [outcomeConfirms, cloudfront_attempt, Bool.or_self]

/-! ## Claim C11: the bound on concurrent evaluations -/

theorem countP_set_add {α : Type} (p : α → Bool) :
    ∀ (l : List α) (i : Nat) (a b : α), l[i]? = some a →
      (l.set i b).countP p + (if p a then 1 else 0) =
        l.countP p + (if p b then 1 else 0)
  | [], _, _, _, h => by simp at h
  | x :: rest, 0, a, b, h => by
    have hx : x = a := by simpa using h
    subst hx
    rw [List.set_cons_zero, List.countP_cons, List.countP_cons]
    omega
  | x :: rest, i + 1, a, b, h => by
    have hrest : rest[i]? = some a := by simpa using h
    have ih := countP_set_add p rest i a b hrest
    rw [List.set_cons_succ, List.countP_cons, List.countP_cons]
    omega

theorem poolStart_inv (g : Globals) (targets : List String) (s : Pool)
    (h : poolStart g targets = some s) : PoolInv g targets s := by
  unfold poolStart at h
  by_cases hneg : g.config.Threads < 0
  · rw [if_pos hneg] at h
    cases h
  · rw [if_neg hneg] at h
    cases h
    by_cases hlen : 0 < targets.length
    · simp only [if_pos hlen]
      exact
        { slots := by simp
          cap := by simpa using hneg
          settings := rfl
          counter := by simp
          started := rfl
          looping := fun _ => hlen
          finished := by simp
          quiet := by simp }
    · simp only [if_neg hlen]
      exact
        { slots := by simp
          cap := by simpa using hneg
          settings := rfl
          counter := by simp
          started := rfl
          looping := by simp
          finished := fun _ => by simp only []; omega
          quiet := by simp }

theorem mainStep_inv (g : Globals) (targets : List String) (s s1 : Pool)
    (inv : PoolInv g targets s) (h : mainStep targets s = some s1) : PoolInv g targets s1 := by
  obtain ⟨hslots, hcap, hset, hcount, hstart, hloop, hfin, hquiet⟩ := inv
  unfold mainStep at h
  cases hpc : s.mainPc with
  | add =>
    rw [hpc] at h
    cases h
    simp only [hpc] at hslots hcount
    exact
      { slots := by simpa using hslots
        cap := hcap
        settings := hset
        counter := by simp only []; simp at hcount ⊢; omega
        started := hstart
        looping := fun _ => hloop (Or.inl hpc)
        finished := by simp
        quiet := by simp }
  | acquire =>
    rw [hpc] at h
    simp only [] at h
    by_cases hfree : (s.semaphore : Int) < s.globals.config.Threads
    · rw [if_pos hfree] at h
      cases h
      simp only [hpc] at hslots hcount
      exact
        { slots := by simp only []; simp at hslots ⊢; omega
          cap := by
            simp only []
            rw [hset] at hfree
            push_cast
            omega
          settings := hset
          counter := by simpa using hcount
          started := hstart
          looping := fun _ => hloop (Or.inr (Or.inl hpc))
          finished := by simp
          quiet := by simp }
    · rw [if_neg hfree] at h
      cases h
  | spawn =>
    rw [hpc] at h
    simp only [] at h
    cases ht : targets[s.next]? with
    | none =>
      rw [ht] at h
      cases h
    | some t =>
      rw [ht] at h
      cases h
      simp only [hpc] at hslots hcount
      have hlt : s.next < targets.length := hloop (Or.inr (Or.inr hpc))
      by_cases hmore : s.next + 1 < targets.length
      · simp only [if_pos hmore]
        exact
          { slots := by
              simp only [List.countP_append, List.countP_cons, List.countP_nil, holdsSlot]
              simp at hslots ⊢
              omega
            cap := hcap
            settings := hset
            counter := by
              simp only [List.countP_append, List.countP_cons, List.countP_nil, unsignalled]
              simp at hcount ⊢
              omega
            started := by simp [hstart]
            looping := fun _ => hmore
            finished := by simp
            quiet := by simp }
      · simp only [if_neg hmore]
        exact
          { slots := by
              simp only [List.countP_append, List.countP_cons, List.countP_nil, holdsSlot]
              simp at hslots ⊢
              omega
            cap := hcap
            settings := hset
            counter := by
              simp only [List.countP_append, List.countP_cons, List.countP_nil, unsignalled]
              simp at hcount ⊢
              omega
            started := by simp [hstart]
            looping := by simp
            finished := fun _ => by simp only []; omega
            quiet := by simp }
  | wait =>
    rw [hpc] at h
    simp only [] at h
    by_cases hz : s.wg = 0
    · rw [if_pos hz] at h
      cases h
      simp only [hpc] at hslots hcount
      exact
        { slots := by simpa using hslots
          cap := hcap
          settings := hset
          counter := by simpa using hcount
          started := hstart
          looping := by simp
          finished := fun _ => hfin (Or.inl hpc)
          quiet := fun _ => hz }
    · rw [if_neg hz] at h
      cases h
  | returned =>
    rw [hpc] at h
    cases h

theorem workerStep_inv (world : Nat → Env) (g : Globals) (targets : List String)
    (s s1 : Pool) (i : Nat) (w : Worker) (inv : PoolInv g targets s)
    (hw : s.workers[i]? = some w) (h : workerStep world i w s = some s1) :
    PoolInv g targets s1 := by
  obtain ⟨hslots, hcap, hset, hcount, hstart, hloop, hfin, hquiet⟩ := inv
  unfold workerStep at h
  cases hpc : w.pc with
  | check =>
    rw [hpc] at h
    cases h
    have hs := countP_set_add holdsSlot s.workers i w
      { w with pc := WorkerPc.append (checkSubdomain (world w.index) s.globals w.target) } hw
    have hu := countP_set_add unsignalled s.workers i w
      { w with pc := WorkerPc.append (checkSubdomain (world w.index) s.globals w.target) } hw
    simp [holdsSlot, unsignalled, hpc] at hs hu
    exact
      { slots := by simp only []; omega
        cap := hcap
        settings := hset
        counter := by simp only []; omega
        started := by simp [hstart]
        looping := hloop
        finished := hfin
        quiet := hquiet }
  | append result =>
    rw [hpc] at h
    simp only [] at h
    have hs := countP_set_add holdsSlot s.workers i w { w with pc := WorkerPc.release } hw
    have hu := countP_set_add unsignalled s.workers i w { w with pc := WorkerPc.release } hw
    simp [holdsSlot, unsignalled, hpc] at hs hu
    by_cases hst : (result.Status != "") = true
    · rw [if_pos hst] at h
      cases h
      exact
        { slots := by simp only []; omega
          cap := hcap
          settings := hset
          counter := by simp only []; omega
          started := by simp [hstart]
          looping := hloop
          finished := hfin
          quiet := hquiet }
    · rw [if_neg hst] at h
      cases h
      exact
        { slots := by simp only []; omega
          cap := hcap
          settings := hset
          counter := by simp only []; omega
          started := by simp [hstart]
          looping := hloop
          finished := hfin
          quiet := hquiet }
  | release =>
    rw [hpc] at h
    simp only [] at h
    have hs := countP_set_add holdsSlot s.workers i w { w with pc := WorkerPc.signal } hw
    have hu := countP_set_add unsignalled s.workers i w { w with pc := WorkerPc.signal } hw
    simp [holdsSlot, unsignalled, hpc] at hs hu
    by_cases hpos : 0 < s.semaphore
    · rw [if_pos hpos] at h
      cases h
      exact
        { slots := by simp only []; omega
          cap := by simp only []; omega
          settings := hset
          counter := by simp only []; omega
          started := by simp [hstart]
          looping := hloop
          finished := hfin
          quiet := hquiet }
    · rw [if_neg hpos] at h
      cases h
  | signal =>
    rw [hpc] at h
    simp only [] at h
    have hs := countP_set_add holdsSlot s.workers i w { w with pc := WorkerPc.exited } hw
    have hu := countP_set_add unsignalled s.workers i w { w with pc := WorkerPc.exited } hw
    simp [holdsSlot, unsignalled, hpc] at hs hu
    by_cases hpos : 0 < s.wg
    · rw [if_pos hpos] at h
      cases h
      exact
        { slots := by simp only []; omega
          cap := hcap
          settings := hset
          counter := by simp only []; omega
          started := by simp [hstart]
          looping := hloop
          finished := hfin
          quiet := fun hr => by
            have := hquiet hr
            omega }
    · rw [if_neg hpos] at h
      cases h
  | exited =>
    rw [hpc] at h
    cases h

theorem poolStep_inv (world : Nat → Env) (g : Globals) (targets : List String)
    (a : Action) (s s1 : Pool) (inv : PoolInv g targets s)
    (h : poolStep world targets a s = some s1) : PoolInv g targets s1 := by
  cases a with
  | main => exact mainStep_inv g targets s s1 inv h
  | worker i =>
    unfold poolStep at h
    simp only [] at h
    cases hw : s.workers[i]? with
    | none =>
      rw [hw] at h
      cases h
    | some w =>
      rw [hw] at h
      exact workerStep_inv world g targets s s1 i w inv hw h

theorem runPool_inv (world : Nat → Env) (g : Globals) (targets : List String)
    (schedule : List Action) :
    ∀ s s1 : Pool, PoolInv g targets s → runPool world targets schedule s = some s1 →
      PoolInv g targets s1 := by
  induction schedule with
  | nil =>
    intro s s1 inv h
    cases h
    exact inv
  | cons a rest ih =>
    intro s s1 inv h
    rw [runPool] at h
    cases hstep : poolStep world targets a s with
    | none =>
      rw [hstep] at h
      cases h
    | some s2 =>
      rw [hstep] at h
      exact ih s2 s1 (poolStep_inv world g targets a s s2 inv hstep) h

theorem processTargetsPool_inv (world : Nat → Env) (g : Globals) (targets : List String)
    (schedule : List Action) (s : Pool)
    (h : processTargetsPool world g targets schedule = some s) : PoolInv g targets s := by
  unfold processTargetsPool at h
  cases hstart : poolStart g targets with
  | none =>
    rw [hstart] at h
    cases h
  | some s0 =>
    rw [hstart] at h
    exact runPool_inv world g targets schedule s0 s (poolStart_inv g targets s0 hstart) h

theorem logCount_set (l : List Worker) (i j : Nat) (w w1 : Worker) (h : l[i]? = some w) :
    logCount (l.set i w1) j + (if i = j ∧ pastAppend w = true then 1 else 0) =
      logCount l j + (if i = j ∧ pastAppend w1 = true then 1 else 0) := by
  obtain ⟨hi, -⟩ := List.getElem?_eq_some.mp h
  unfold logCount
  rw [List.getElem?_set]
  by_cases hij : i = j
  · subst hij
    rw [if_pos rfl, if_pos hi, h]
    by_cases h1 : pastAppend w = true <;> by_cases h2 : pastAppend w1 = true <;> simp [h1, h2]
  · rw [if_neg hij]
    simp [hij]

theorem logCount_concat (l : List Worker) (w : Worker) (j : Nat) (hw : pastAppend w = false) :
    logCount (l ++ [w]) j = logCount l j := by
  unfold logCount
  by_cases hj : j < l.length
  · rw [List.getElem?_append_left hj]
  · rw [List.getElem?_append_right (Nat.le_of_not_lt hj),
      List.getElem?_eq_none (Nat.le_of_not_lt hj)]
    generalize j - l.length = k
    cases k with
    | zero => simp [hw]
    | succ n => simp

theorem runWorkers_concat (world : Nat → Env) (g : Globals) (targets : List String)
    (order : List Nat) (i : Nat) (t : String) (ht : targets[i]? = some t) :
    runWorkers world g targets (order ++ [i]) =
      worker (world i) (runWorkers world g targets order) t := by
  unfold runWorkers
  rw [List.foldl_append, List.foldl_cons, List.foldl_nil, ht]

theorem poolStart_log (world : Nat → Env) (g : Globals) (targets : List String) (s : Pool)
    (h : poolStart g targets = some s) : PoolLog world g targets s := by
  unfold poolStart at h
  by_cases hneg : g.config.Threads < 0
  · rw [if_pos hneg] at h
    cases h
  · rw [if_neg hneg] at h
    cases h
    exact
      { named := by simp
        logged := rfl
        pending := by simp
        once := by simp [logCount] }

theorem getElem?_set_cases {α : Type} (l : List α) (i j : Nat) (b c : α)
    (h : (l.set i b)[j]? = some c) : (i = j ∧ c = b) ∨ (i ≠ j ∧ l[j]? = some c) := by
  rw [List.getElem?_set] at h
  by_cases hij : i = j
  · rw [if_pos hij] at h
    by_cases hi : i < l.length
    · rw [if_pos hi] at h
      cases h
      exact Or.inl ⟨hij, rfl⟩
    · rw [if_neg hi] at h
      cases h
  · rw [if_neg hij] at h
    exact Or.inr ⟨hij, h⟩

theorem checkSubdomain_runWorkers (env : Env) (world : Nat → Env) (g : Globals)
    (targets : List String) (order : List Nat) (t : String) :
    checkSubdomain env (runWorkers world g targets order) t = checkSubdomain env g t := by
  rw [runWorkers_eq]
  exact checkSubdomain_results env g _ t

theorem mainStep_log (world : Nat → Env) (g : Globals) (targets : List String) (s s1 : Pool)
    (inv : PoolInv g targets s) (log : PoolLog world g targets s)
    (h : mainStep targets s = some s1) : PoolLog world g targets s1 := by
  obtain ⟨hnamed, hlogged, hpending, honce⟩ := log
  unfold mainStep at h
  cases hpc : s.mainPc with
  | add =>
    rw [hpc] at h
    cases h
    exact ⟨hnamed, hlogged, hpending, honce⟩
  | acquire =>
    rw [hpc] at h
    simp only [] at h
    by_cases hfree : (s.semaphore : Int) < s.globals.config.Threads
    · rw [if_pos hfree] at h
      cases h
      exact ⟨hnamed, hlogged, hpending, honce⟩
    · rw [if_neg hfree] at h
      cases h
  | spawn =>
    rw [hpc] at h
    simp only [] at h
    cases ht : targets[s.next]? with
    | none =>
      rw [ht] at h
      cases h
    | some t =>
      rw [ht] at h
      cases h
      have hlen : s.workers.length = s.next := inv.started
      have hnew : ∀ (i : Nat) (w : Worker),
          (s.workers ++ [{ index := s.next, target := t, pc := WorkerPc.check }])[i]? = some w →
          s.workers[i]? = some w ∨
            (i = s.next ∧ w = { index := s.next, target := t, pc := WorkerPc.check }) := by
        intro i w hiw
        by_cases hi : i < s.workers.length
        · rw [List.getElem?_append_left hi] at hiw
          exact Or.inl hiw
        · rw [List.getElem?_append_right (Nat.le_of_not_lt hi)] at hiw
          have hk : i - s.workers.length = 0 := by
            cases hk : i - s.workers.length with
            | zero => rfl
            | succ n =>
              rw [hk] at hiw
              simp at hiw
          rw [hk] at hiw
          simp at hiw
          exact Or.inr ⟨by omega, hiw.symm⟩
      exact
        { named := by
            intro i w hiw
            rcases hnew i w hiw with hold | ⟨hi, hw⟩
            · exact hnamed i w hold
            · subst hw
              subst hi
              exact ⟨rfl, ht⟩
          logged := hlogged
          pending := by
            intro i w r hiw hr
            rcases hnew i w hiw with hold | ⟨hi, hw⟩
            · exact hpending i w r hold hr
            · subst hw
              cases hr
          once := by
            intro j
            simp only []
            rw [logCount_concat s.workers
              { index := s.next, target := t, pc := WorkerPc.check } j rfl]
            exact honce j }
  | wait =>
    rw [hpc] at h
    simp only [] at h
    by_cases hz : s.wg = 0
    · rw [if_pos hz] at h
      cases h
      exact ⟨hnamed, hlogged, hpending, honce⟩
    · rw [if_neg hz] at h
      cases h
  | returned =>
    rw [hpc] at h
    cases h

theorem setPc_named (targets : List String) (l : List Worker) (i : Nat) (w : Worker)
    (pc1 : WorkerPc)
    (hnamed : ∀ (j : Nat) (w2 : Worker), l[j]? = some w2 →
      w2.index = j ∧ targets[j]? = some w2.target)
    (hw : l[i]? = some w) :
    ∀ (j : Nat) (w2 : Worker), (l.set i { w with pc := pc1 })[j]? = some w2 →
      w2.index = j ∧ targets[j]? = some w2.target := by
  intro j w2 hj
  rcases getElem?_set_cases l i j _ w2 hj with ⟨hij, hw2⟩ | ⟨-, hold⟩
  · subst hw2
    subst hij
    exact hnamed i w hw
  · exact hnamed j w2 hold

theorem setPc_pending (world : Nat → Env) (g : Globals) (l : List Worker) (i : Nat)
    (w : Worker) (pc1 : WorkerPc)
    (hpending : ∀ (j : Nat) (w2 : Worker) (r : Result), l[j]? = some w2 →
      w2.pc = WorkerPc.append r → r = checkSubdomain (world w2.index) g w2.target)
    (hpc1 : ∀ r, pc1 = WorkerPc.append r → r = checkSubdomain (world w.index) g w.target) :
    ∀ (j : Nat) (w2 : Worker) (r : Result), (l.set i { w with pc := pc1 })[j]? = some w2 →
      w2.pc = WorkerPc.append r → r = checkSubdomain (world w2.index) g w2.target := by
  intro j w2 r hj hr
  rcases getElem?_set_cases l i j _ w2 hj with ⟨-, hw2⟩ | ⟨-, hold⟩
  · subst hw2
    exact hpc1 r hr
  · exact hpending j w2 r hold hr

theorem setPc_log (world : Nat → Env) (g : Globals) (targets : List String) (s s1 : Pool)
    (i : Nat) (w : Worker) (pc1 : WorkerPc) (log : PoolLog world g targets s)
    (hw : s.workers[i]? = some w)
    (hpast : pastAppend { w with pc := pc1 } = pastAppend w)
    (hpc1 : ∀ r, pc1 = WorkerPc.append r → r = checkSubdomain (world w.index) g w.target)
    (hworkers : s1.workers = s.workers.set i { w with pc := pc1 })
    (hglobals : s1.globals = s.globals) (happended : s1.appended = s.appended) :
    PoolLog world g targets s1 := by
  obtain ⟨hnamed, hlogged, hpending, honce⟩ := log
  refine ⟨?_, ?_, ?_, ?_⟩
  · rw [hworkers]
    exact setPc_named targets s.workers i w pc1 hnamed hw
  · rw [hglobals, happended]
    exact hlogged
  · rw [hworkers]
    exact setPc_pending world g s.workers i w pc1 hpending hpc1
  · intro j
    rw [hworkers, happended, honce j]
    have hset := logCount_set s.workers i j w { w with pc := pc1 } hw
    rw [hpast] at hset
    omega

theorem workerStep_log (world : Nat → Env) (g : Globals) (targets : List String)
    (s s1 : Pool) (i : Nat) (w : Worker) (log : PoolLog world g targets s)
    (hw : s.workers[i]? = some w) (h : workerStep world i w s = some s1) :
    PoolLog world g targets s1 := by
  unfold workerStep at h
  cases hpc : w.pc with
  | check =>
    rw [hpc] at h
    cases h
    refine setPc_log world g targets s _ i w _ log hw ?_ ?_ rfl rfl rfl
    · simp [pastAppend, hpc]
    · intro r hr
      cases hr
      rw [log.logged]
      exact checkSubdomain_runWorkers _ world g targets s.appended w.target
  | append result =>
    rw [hpc] at h
    simp only [] at h
    have hres : result = checkSubdomain (world w.index) g w.target :=
      log.pending i w result hw hpc
    have hst : (result.Status != "") = true := by
      rw [bne_iff_ne, hres]
      exact checkSubdomain_status_ne_empty _ g w.target
    rw [if_pos hst] at h
    cases h
    obtain ⟨hnamed, hlogged, hpending, honce⟩ := log
    obtain ⟨hindex, htarget⟩ := hnamed i w hw
    refine ⟨?_, ?_, ?_, ?_⟩
    · exact setPc_named targets s.workers i w _ hnamed hw
    · show { s.globals with results := s.globals.results ++ [result] } =
        runWorkers world g targets (s.appended ++ [w.index])
      rw [hindex, runWorkers_concat world g targets s.appended i w.target htarget,
        ← hlogged]
      unfold worker
      simp only []
      have hsame : checkSubdomain (world i) s.globals w.target = result := by
        rw [hlogged, checkSubdomain_runWorkers, hres, hindex]
      rw [hsame, if_pos hst]
    · refine setPc_pending world g s.workers i w _ hpending ?_
      intro r hr
      cases hr
    · intro j
      show (s.appended ++ [w.index]).count j =
        logCount (s.workers.set i { w with pc := WorkerPc.release }) j
      have hset := logCount_set s.workers i j w { w with pc := WorkerPc.release } hw
      have hp0 : pastAppend w = false := by simp [pastAppend, hpc]
      have hp1 : pastAppend { w with pc := WorkerPc.release } = true := rfl
      rw [hp0, hp1] at hset
      have hcount : (s.appended ++ [w.index]).count j =
          logCount s.workers j + (if i = j then 1 else 0) := by
        rw [List.count_append, honce j, List.count_singleton, hindex]
        by_cases hij : i = j
        · simp [hij]
        · simp [hij]
      rw [hcount]
      by_cases hij : i = j
      · simp only [hij, true_and, if_true, Bool.false_eq_true, if_false] at hset ⊢
        omega
      · simp only [hij, false_and, if_false] at hset ⊢
        omega
  | release =>
    rw [hpc] at h
    simp only [] at h
    by_cases hpos : 0 < s.semaphore
    · rw [if_pos hpos] at h
      cases h
      refine setPc_log world g targets s _ i w _ log hw ?_ ?_ rfl rfl rfl
      · simp [pastAppend, hpc]
      · intro r hr
        cases hr
    · rw [if_neg hpos] at h
      cases h
  | signal =>
    rw [hpc] at h
    simp only [] at h
    by_cases hpos : 0 < s.wg
    · rw [if_pos hpos] at h
      cases h
      refine setPc_log world g targets s _ i w _ log hw ?_ ?_ rfl rfl rfl
      · simp [pastAppend, hpc]
      · intro r hr
        cases hr
    · rw [if_neg hpos] at h
      cases h
  | exited =>
    rw [hpc] at h
    cases h

theorem poolStep_log (world : Nat → Env) (g : Globals) (targets : List String)
    (a : Action) (s s1 : Pool) (inv : PoolInv g targets s) (log : PoolLog world g targets s)
    (h : poolStep world targets a s = some s1) : PoolLog world g targets s1 := by
  cases a with
  | main => exact mainStep_log world g targets s s1 inv log h
  | worker i =>
    unfold poolStep at h
    simp only [] at h
    cases hw : s.workers[i]? with
    | none =>
      rw [hw] at h
      cases h
    | some w =>
      rw [hw] at h
      exact workerStep_log world g targets s s1 i w log hw h

theorem runPool_log (world : Nat → Env) (g : Globals) (targets : List String)
    (schedule : List Action) :
    ∀ s s1 : Pool, PoolInv g targets s → PoolLog world g targets s →
      runPool world targets schedule s = some s1 → PoolLog world g targets s1 := by
  induction schedule with
  | nil =>
    intro s s1 _ log h
    cases h
    exact log
  | cons a rest ih =>
    intro s s1 inv log h
    rw [runPool] at h
    cases hstep : poolStep world targets a s with
    | none =>
      rw [hstep] at h
      cases h
    | some s2 =>
      rw [hstep] at h
      exact ih s2 s1 (poolStep_inv world g targets a s s2 inv hstep)
        (poolStep_log world g targets a s s2 inv log hstep) h

theorem processTargetsPool_log (world : Nat → Env) (g : Globals) (targets : List String)
    (schedule : List Action) (s : Pool)
    (h : processTargetsPool world g targets schedule = some s) : PoolLog world g targets s := by
  unfold processTargetsPool at h
  cases hstart : poolStart g targets with
  | none =>
    rw [hstart] at h
    cases h
  | some s0 =>
    rw [hstart] at h
    exact runPool_log world g targets schedule s0 s (poolStart_inv g targets s0 hstart)
      (poolStart_log world g targets s0 hstart) h

theorem evaluating_holdsSlot (w : Worker) (h : evaluating w = true) : holdsSlot w = true := by
  unfold evaluating at h
  unfold holdsSlot
  cases hpc : w.pc <;> rw [hpc] at h <;> first | rfl | cases h

theorem unsignalled_false (w : Worker) (h : ¬ unsignalled w = true) :
    w.pc = WorkerPc.exited := by
  unfold unsignalled at h
  cases hpc : w.pc <;> rw [hpc] at h <;> first | rfl | exact absurd rfl h

theorem count_range_eq (n j : Nat) : (List.range n).count j = if j < n then 1 else 0 := by
  by_cases hj : j < n
  · rw [if_pos hj]
    exact List.count_eq_one_of_mem (List.nodup_range n) (List.mem_range.mpr hj)
  · rw [if_neg hj]
    exact List.count_eq_zero_of_not_mem (fun hmem => hj (List.mem_range.mp hmem))

theorem returned_all_exited (g : Globals) (targets : List String) (s : Pool)
    (inv : PoolInv g targets s) (hret : s.mainPc = MainPc.returned) :
    s.workers.length = targets.length ∧ ∀ w ∈ s.workers, w.pc = WorkerPc.exited := by
  have hwg : s.wg = 0 := inv.quiet hret
  have hcount := inv.counter
  rw [hwg] at hcount
  have hzero : s.workers.countP unsignalled = 0 := by omega
  rw [List.countP_eq_zero] at hzero
  refine ⟨?_, fun w hw => unsignalled_false w (hzero w hw)⟩
  rw [inv.started]
  exact inv.finished (Or.inr hret)

theorem returned_perm (world : Nat → Env) (g : Globals) (targets : List String) (s : Pool)
    (inv : PoolInv g targets s) (log : PoolLog world g targets s)
    (hret : s.mainPc = MainPc.returned) :
    s.appended.Perm (List.range targets.length) := by
  obtain ⟨hlen, hexit⟩ := returned_all_exited g targets s inv hret
  rw [List.perm_iff_count]
  intro j
  rw [log.once j, count_range_eq]
  unfold logCount
  by_cases hj : j < targets.length
  · rw [if_pos hj]
    have hjw : j < s.workers.length := by omega
    rw [List.getElem?_eq_getElem hjw]
    have hpc : s.workers[j].pc = WorkerPc.exited := hexit _ (List.getElem_mem hjw)
    simp [pastAppend, hpc]
  · rw [if_neg hj, List.getElem?_eq_none (by omega)]

theorem workerStep_frame (world : Nat → Env) (s s1 : Pool) (i : Nat) (w : Worker)
    (h : workerStep world i w s = some s1) : s1.mainPc = s.mainPc ∧ s1.next = s.next := by
  unfold workerStep at h
  cases hpc : w.pc with
  | check =>
    rw [hpc] at h
    cases h
    exact ⟨rfl, rfl⟩
  | append result =>
    rw [hpc] at h
    simp only [] at h
    by_cases hst : (result.Status != "") = true
    · rw [if_pos hst] at h
      cases h
      exact ⟨rfl, rfl⟩
    · rw [if_neg hst] at h
      cases h
      exact ⟨rfl, rfl⟩
  | release =>
    rw [hpc] at h
    simp only [] at h
    by_cases hpos : 0 < s.semaphore
    · rw [if_pos hpos] at h
      cases h
      exact ⟨rfl, rfl⟩
    · rw [if_neg hpos] at h
      cases h
  | signal =>
    rw [hpc] at h
    simp only [] at h
    by_cases hpos : 0 < s.wg
    · rw [if_pos hpos] at h
      cases h
      exact ⟨rfl, rfl⟩
    · rw [if_neg hpos] at h
      cases h
  | exited =>
    rw [hpc] at h
    cases h

theorem mainStep_open (g : Globals) (targets : List String) (s s1 : Pool)
    (inv : PoolInv g targets s)
    (hopen : (s.mainPc = MainPc.spawn ∨ 0 < s.next) → 0 < g.config.Threads)
    (h : mainStep targets s = some s1) :
    (s1.mainPc = MainPc.spawn ∨ 0 < s1.next) → 0 < g.config.Threads := by
  unfold mainStep at h
  cases hpc : s.mainPc with
  | add =>
    rw [hpc] at h
    cases h
    rintro (hsp | hnext)
    · cases hsp
    · exact hopen (Or.inr hnext)
  | acquire =>
    rw [hpc] at h
    simp only [] at h
    by_cases hfree : (s.semaphore : Int) < s.globals.config.Threads
    · rw [if_pos hfree] at h
      cases h
      intro _
      rw [inv.settings] at hfree
      omega
    · rw [if_neg hfree] at h
      cases h
  | spawn =>
    rw [hpc] at h
    simp only [] at h
    cases ht : targets[s.next]? with
    | none =>
      rw [ht] at h
      cases h
    | some t =>
      rw [ht] at h
      cases h
      intro _
      exact hopen (Or.inl hpc)
  | wait =>
    rw [hpc] at h
    simp only [] at h
    by_cases hz : s.wg = 0
    · rw [if_pos hz] at h
      cases h
      rintro (hsp | hnext)
      · cases hsp
      · exact hopen (Or.inr hnext)
    · rw [if_neg hz] at h
      cases h
  | returned =>
    rw [hpc] at h
    cases h

theorem poolStep_open (world : Nat → Env) (g : Globals) (targets : List String)
    (a : Action) (s s1 : Pool) (inv : PoolInv g targets s)
    (hopen : (s.mainPc = MainPc.spawn ∨ 0 < s.next) → 0 < g.config.Threads)
    (h : poolStep world targets a s = some s1) :
    (s1.mainPc = MainPc.spawn ∨ 0 < s1.next) → 0 < g.config.Threads := by
  cases a with
  | main => exact mainStep_open g targets s s1 inv hopen h
  | worker i =>
    unfold poolStep at h
    simp only [] at h
    cases hw : s.workers[i]? with
    | none =>
      rw [hw] at h
      cases h
    | some w =>
      rw [hw] at h
      obtain ⟨hpc, hnext⟩ := workerStep_frame world s s1 i w h
      rw [hpc, hnext]
      exact hopen

theorem runPool_open (world : Nat → Env) (g : Globals) (targets : List String)
    (schedule : List Action) :
    ∀ s s1 : Pool, PoolInv g targets s →
      ((s.mainPc = MainPc.spawn ∨ 0 < s.next) → 0 < g.config.Threads) →
      runPool world targets schedule s = some s1 →
      (s1.mainPc = MainPc.spawn ∨ 0 < s1.next) → 0 < g.config.Threads := by
  induction schedule with
  | nil =>
    intro s s1 _ hopen h
    cases h
    exact hopen
  | cons a rest ih =>
    intro s s1 inv hopen h
    rw [runPool] at h
    cases hstep : poolStep world targets a s with
    | none =>
      rw [hstep] at h
      cases h
    | some s2 =>
      rw [hstep] at h
      exact ih s2 s1 (poolStep_inv world g targets a s s2 inv hstep)
        (poolStep_open world g targets a s s2 inv hopen hstep) h

theorem processTargetsPool_open (world : Nat → Env) (g : Globals) (targets : List String)
    (schedule : List Action) (s : Pool)
    (h : processTargetsPool world g targets schedule = some s) :
    ¬ g.config.Threads < 0 ∧
      ((s.mainPc = MainPc.spawn ∨ 0 < s.next) → 0 < g.config.Threads) := by
  unfold processTargetsPool at h
  cases hstart : poolStart g targets with
  | none =>
    rw [hstart] at h
    cases h
  | some s0 =>
    rw [hstart] at h
    have hinv := poolStart_inv g targets s0 hstart
    have hneg : ¬ g.config.Threads < 0 := by
      intro hneg
      unfold poolStart at hstart
      rw [if_pos hneg] at hstart
      cases hstart
    refine ⟨hneg, runPool_open world g targets schedule s0 s hinv ?_ h⟩
    unfold poolStart at hstart
    rw [if_neg hneg] at hstart
    cases hstart
    rintro (hsp | hnext)
    · by_cases hlen : 0 < targets.length
      · simp only [if_pos hlen] at hsp
        cases hsp
      · simp only [if_neg hlen] at hsp
        cases hsp
    · exact absurd hnext (Nat.lt_irrefl 0)

theorem processTargets_of_returned (world : Nat → Env) (g : Globals) (targets : List String)
    (schedule : List Action) (s : Pool)
    (h : processTargetsPool world g targets schedule = some s)
    (hret : s.mainPc = MainPc.returned) :
    processTargets world g targets s.appended = Outcome.returned s.globals := by
  have inv := processTargetsPool_inv world g targets schedule s h
  have log := processTargetsPool_log world g targets schedule s h
  obtain ⟨hneg, hopen⟩ := processTargetsPool_open world g targets schedule s h
  have hnext : s.next = targets.length := inv.finished (Or.inr hret)
  unfold processTargets
  rw [if_neg hneg]
  have hfree : ¬ (g.config.Threads = 0 ∧ 0 < targets.length) := by
    rintro ⟨hzero, hlen⟩
    have hpos := hopen (Or.inr (by omega))
    omega
  rw [if_neg hfree, log.logged]

/-- C11.  In every state that a run of `processTargets` reaches, under any schedule
of the main goroutine and the workers: the number of workers inside
`checkSubdomain` is at most `config.Threads`; a worker inside `checkSubdomain`
holds a slot, the slots held being exactly the elements buffered in
`semaphore`, never more than `config.Threads`; when all slots are taken the
main goroutine cannot pass its send, so the next target waits; and when
`processTargets` has returned, one worker per target was started and all of
them have ended, each target index was appended once, and the package-level
variables are those of the function `processTargets` for that order. -/
theorem processTargets_bounded_concurrency (world : Nat → Env) (g : Globals)
    (targets : List String) (schedule : List Action) (s : Pool)
    (h : processTargetsPool world g targets schedule = some s) :
    (inFlight s : Int) ≤ g.config.Threads ∧
      (∀ w ∈ s.workers, evaluating w = true → holdsSlot w = true) ∧
      s.workers.countP holdsSlot + (if s.mainPc = MainPc.spawn then 1 else 0) = s.semaphore ∧
      (s.semaphore : Int) ≤ g.config.Threads ∧
      (s.mainPc = MainPc.acquire → (s.semaphore : Int) = g.config.Threads →
        poolStep world targets Action.main s = none) ∧
      (s.mainPc = MainPc.returned →
        s.workers.length = targets.length ∧
        (∀ w ∈ s.workers, w.pc = WorkerPc.exited) ∧
        (∀ (i : Nat) (w : Worker), s.workers[i]? = some w →
          w.index = i ∧ targets[i]? = some w.target) ∧
        s.appended.Perm (List.range targets.length) ∧
        processTargets world g targets s.appended = Outcome.returned s.globals) := by
  have inv := processTargetsPool_inv world g targets schedule s h
  have log := processTargetsPool_log world g targets schedule s h
  have hle : inFlight s ≤ s.workers.countP holdsSlot :=
    List.countP_mono_left (fun w _ hw => evaluating_holdsSlot w hw)
  have hslots := inv.slots
  have hcap := inv.cap
  refine ⟨?_, fun w _ hw => evaluating_holdsSlot w hw, hslots, hcap, ?_, ?_⟩
  · have hsem : inFlight s ≤ s.semaphore := by omega
    omega
  · intro hpc hfull
    show mainStep targets s = none
    unfold mainStep
    rw [hpc]
    simp only []
    rw [inv.settings, if_neg (by omega)]
  · intro hret
    obtain ⟨hlen, hexit⟩ := returned_all_exited g targets s inv hret
    exact ⟨hlen, hexit, log.named, returned_perm world g targets s inv log hret,
      processTargets_of_returned world g targets schedule s h hret⟩

theorem processTargets_bounded_concurrency_witness :
    ∃ s, processTargetsPool (fun _ => deadEnv) twoThreadGlobals ["a.example.com",
        "b.example.com", "c.example.com"] sampleSchedule = some s ∧
      s.mainPc = MainPc.returned ∧
      (inFlight s : Int) ≤ twoThreadGlobals.config.Threads ∧
      s.workers.length = 3 ∧
      processTargets (fun _ => deadEnv) twoThreadGlobals ["a.example.com",
        "b.example.com", "c.example.com"] s.appended = Outcome.returned s.globals ∧
      (processTargetsPool (fun _ => deadEnv) twoThreadGlobals ["a.example.com",
        "b.example.com", "c.example.com"] (sampleSchedule.take 6)).map inFlight = some 2 ∧
      processTargetsPool (fun _ => deadEnv) twoThreadGlobals ["a.example.com",
        "b.example.com", "c.example.com"]
        (sampleSchedule.take 6 ++ [Action.main, Action.main]) = none := by
  have hsome : (processTargetsPool (fun _ => deadEnv) twoThreadGlobals ["a.example.com",
      "b.example.com", "c.example.com"] sampleSchedule).isSome = true := by decide
  obtain ⟨s, hs⟩ := Option.isSome_iff_exists.mp hsome
  have hret : s.mainPc = MainPc.returned := by
    have hmap : (processTargetsPool (fun _ => deadEnv) twoThreadGlobals ["a.example.com",
        "b.example.com", "c.example.com"] sampleSchedule).map (fun p => p.mainPc) =
        some MainPc.returned := by decide
    rw [hs] at hmap
    exact Option.some.inj hmap
  have hthm := processTargets_bounded_concurrency (fun _ => deadEnv) twoThreadGlobals
    ["a.example.com", "b.example.com", "c.example.com"] sampleSchedule s hs
  exact ⟨s, hs, hret, hthm.1, (hthm.2.2.2.2.2 hret).1, (hthm.2.2.2.2.2 hret).2.2.2.2,
    by decide, by decide⟩

/-! ## Claim C1: the results appended by `processTargets` -/

theorem runWorkers_results (world : Nat → Env) (g : Globals) (targets : List String)
    (order : List Nat) (horder : order.Perm (List.range targets.length)) :
    (runWorkers world g targets order).results =
        g.results ++ order.filterMap
          (fun i => (targets[i]?).map (fun t => checkSubdomain (world i) g t)) ∧
      (runWorkers world g targets order).results.length =
        g.results.length + targets.length ∧
      (∀ (i : Nat) (hi : i < targets.length),
        checkSubdomain (world i) g targets[i] ∈ (runWorkers world g targets order).results) := by
  have hlt : ∀ i ∈ order, i < targets.length := fun i hi =>
    List.mem_range.mp ((List.Perm.mem_iff horder).mp hi)
  rw [runWorkers_eq]
  refine ⟨rfl, ?_, ?_⟩
  · simp only [List.length_append]
    rw [length_filterMap_of_lt targets (fun i t => checkSubdomain (world i) g t) order hlt,
      List.Perm.length_eq horder, List.length_range]
  · intro i hi
    apply List.mem_append_right
    rw [List.mem_filterMap]
    refine ⟨i, (List.Perm.mem_iff horder).mpr (List.mem_range.mpr hi), ?_⟩
    rw [List.getElem?_eq_getElem hi]
    rfl

theorem pool_without_slots (world : Nat → Env) (g : Globals) (targets : List String)
    (schedule : List Action) (s : Pool) (hzero : g.config.Threads = 0)
    (h : processTargetsPool world g targets schedule = some s) :
    s.workers = [] ∧ s.globals = g ∧ (0 < targets.length → s.mainPc ≠ MainPc.returned) := by
  have inv := processTargetsPool_inv world g targets schedule s h
  have log := processTargetsPool_log world g targets schedule s h
  obtain ⟨-, hopen⟩ := processTargetsPool_open world g targets schedule s h
  have hnext : s.next = 0 := by
    by_cases hpos : 0 < s.next
    · have := hopen (Or.inr hpos)
      omega
    · omega
  have hworkers : s.workers = [] := by
    apply List.eq_nil_of_length_eq_zero
    rw [inv.started, hnext]
  have happended : s.appended = [] := by
    apply List.eq_nil_iff_forall_not_mem.mpr
    intro j hj
    have hcount := log.once j
    rw [hworkers] at hcount
    have hz : s.appended.count j = 0 := by
      rw [hcount]
      simp [logCount]
    exact List.count_eq_zero.mp hz hj
  refine ⟨hworkers, ?_, ?_⟩
  · rw [log.logged, happended]
    rfl
  · intro hlen hret
    have := inv.finished (Or.inr hret)
    omega

/-- C1, as amended.  With a positive `config.Threads`, `processTargets` returns
and has appended one `Result` for every target, whatever its status: the guard
`Status != ""` never fails because `checkSubdomain` always returns one of the
three statuses.  For every order in which the workers reach the append, the
collection is the initial one followed by the results of the targets in that
order; it grows by exactly the number of targets, and the result of every
target, `safe` ones included, is in it.  The same holds for the state of every
run of the goroutines that has returned.  With a negative `config.Threads` the
function panics, and with `config.Threads = 0` and a non-empty list it blocks
at its first send: no worker is started and nothing is appended. -/
theorem processTargets_appends_every_result (world : Nat → Env) (g : Globals)
    (targets : List String) (order : List Nat)
    (horder : order.Perm (List.range targets.length)) :
    (0 < g.config.Threads →
        ∃ out, processTargets world g targets order = Outcome.returned out ∧
          out.results = g.results ++ order.filterMap
            (fun i => (targets[i]?).map (fun t => checkSubdomain (world i) g t)) ∧
          out.results.length = g.results.length + targets.length ∧
          (∀ (i : Nat) (hi : i < targets.length),
            checkSubdomain (world i) g targets[i] ∈ out.results)) ∧
      (∀ (i : Nat) (t : String), targets[i]? = some t →
        (checkSubdomain (world i) g t).Status ≠ "") ∧
      (∀ (schedule : List Action) (s : Pool),
        processTargetsPool world g targets schedule = some s → s.mainPc = MainPc.returned →
          s.globals.results = g.results ++ s.appended.filterMap
            (fun i => (targets[i]?).map (fun t => checkSubdomain (world i) g t)) ∧
          s.globals.results.length = g.results.length + targets.length ∧
          (∀ (i : Nat) (hi : i < targets.length),
            checkSubdomain (world i) g targets[i] ∈ s.globals.results)) ∧
      (g.config.Threads < 0 →
        processTargets world g targets order = Outcome.panicked ∧
        ∀ schedule : List Action, processTargetsPool world g targets schedule = none) ∧
      (g.config.Threads = 0 → 0 < targets.length →
        processTargets world g targets order = Outcome.blocked ∧
        ∀ (schedule : List Action) (s : Pool),
          processTargetsPool world g targets schedule = some s →
            s.workers = [] ∧ s.globals = g ∧ s.mainPc ≠ MainPc.returned) ∧
      (g.config.Threads = 0 → targets = [] →
        processTargets world g targets order = Outcome.returned g) := by
  refine ⟨?_, fun i t _ => checkSubdomain_status_ne_empty (world i) g t, ?_, ?_, ?_, ?_⟩
  · intro hpos
    refine ⟨runWorkers world g targets order, ?_, runWorkers_results world g targets order horder⟩
    unfold processTargets
    rw [if_neg (by omega), if_neg (by omega)]
  · intro schedule s h hret
    have inv := processTargetsPool_inv world g targets schedule s h
    have log := processTargetsPool_log world g targets schedule s h
    have hperm := returned_perm world g targets s inv log hret
    rw [log.logged]
    exact runWorkers_results world g targets s.appended hperm
  · intro hneg
    refine ⟨?_, fun schedule => ?_⟩
    · unfold processTargets
      rw [if_pos hneg]
    · unfold processTargetsPool poolStart
      rw [if_pos hneg]
  · intro hzero hlen
    refine ⟨?_, fun schedule s h => ?_⟩
    · unfold processTargets
      rw [if_neg (by omega), if_pos ⟨hzero, hlen⟩]
    · obtain ⟨h1, h2, h3⟩ := pool_without_slots world g targets schedule s hzero h
      exact ⟨h1, h2, h3 hlen⟩
  · intro hzero hnil
    subst hnil
    have horder2 : order = [] := List.Perm.eq_nil (by simpa using horder)
    subst horder2
    unfold processTargets
    rw [if_neg (by omega), if_neg (by simp)]
    rfl

theorem processTargets_appends_every_result_witness :
    [0].Perm (List.range ["baz.example.com"].length) ∧
      0 < init.config.Threads ∧
      ∃ out, processTargets (fun _ => deadEnv) init ["baz.example.com"] [0] =
          Outcome.returned out ∧
        out.results.length = init.results.length + ["baz.example.com"].length :=
  ⟨List.Perm.refl _, by decide,
    match (processTargets_appends_every_result (fun _ => deadEnv) init ["baz.example.com"] [0]
      (List.Perm.refl _)).1 (by decide) with
    | ⟨out, hout, _, hlen, _⟩ => ⟨out, hout, hlen⟩⟩

/-- C1, counterexample to the claim as stated.  The target `baz.example.com` has
no CNAME and ends `safe`, yet `processTargets` appends its result: the
collection, empty before, holds one entry although no target is non-safe.  The
run of the goroutines under `singleSchedule` returns with the same
collection. -/
theorem processTargets_safe_target_is_appended :
    (checkSubdomain deadEnv init "baz.example.com").Status = "safe" ∧
      init.results = [] ∧
      processTargets (fun _ => deadEnv) init ["baz.example.com"] [0] =
        Outcome.returned
          { init with results := [{ Subdomain := "baz.example.com", Status := "safe" }] } ∧
      (processTargetsPool (fun _ => deadEnv) init ["baz.example.com"] singleSchedule).map
          (fun s => (s.mainPc, s.globals.results)) =
        some (MainPc.returned, [{ Subdomain := "baz.example.com", Status := "safe" }]) ∧
      ¬ ([{ Subdomain := "baz.example.com", Status := "safe" }] : List Result).length ≤
        (["baz.example.com"].filter
          (fun t => (checkSubdomain deadEnv init t).Status != "safe")).length := by
  refine ⟨by decide, rfl, by rfl, by decide, by decide⟩

end SubTake
